import Mathlib

/-!
Verification of the training-job orchestration subsystem of the CannaAI
repository (backend of the AgentEvolver dashboard).

The definitions below are a shallow embedding of the Python sources:

* backend/evolution_service.py  — metric-line parsing (a backtracking
  matcher faithful to the regex
  Generation\s*\[(\d+)/(\d+)\]:.*Avg Reward:\s*([\d\.]+).*Best Reward:\s*([\d\.]+)
  under Python re.search semantics: leftmost match position, greedy
  quantifiers tried longest-first), the pump loop of run_evolution, and
  EvolutionService.stop.
* backend/server.py — the shared asyncio.Queue used as the log event bus,
  the start/stop/telemetry/job endpoints, and the WebSocket fan-out loop.
* backend/webhook_service.py — WebhookService.send_event.
* backend/agent_evolver_shim.py — run_fallback_simulation.

Machine reals (Python floats) are modelled as exact rationals; text is
modelled as List Char.
-/

namespace CannaAI

/-- ASCII whitespace recognised by the regex class \s (Python, ASCII range). -/
def isWsChar (c : Char) : Bool :=
  c = ' ' || c = '\t' || c = '\n' || c = '\x0d' || c = '\x0b' || c = '\x0c'

/-- Characters matched by the regex class [\d\.]: a decimal digit or a dot. -/
def isNumChar (c : Char) : Bool :=
  c.isDigit || c = '.'

/-- If text `p` is a literal front part of `s`, return the remainder of `s`. -/
def stripPre? : List Char → List Char → Option (List Char)
  | [], s => some s
  | _ :: _, [] => none
  | p :: ps, c :: cs => if p = c then stripPre? ps cs else none

/-- Does `pat` occur verbatim anywhere inside `s`? -/
def occursAnywhere (pat : List Char) : List Char → Bool
  | [] => (stripPre? pat []).isSome
  | c :: cs => (stripPre? pat (c :: cs)).isSome || occursAnywhere pat cs

/-- Try the continuation `f` at every position of the text, leftmost first
(the search order of Python re.search over candidate start positions). -/
def searchFirst (f : List Char → Option α) : List Char → Option α
  | [] => f []
  | c :: cs =>
    match f (c :: cs) with
    | some v => some v
    | none => searchFirst f cs

/-- Try the continuation `f` at every position of the text, rightmost first
(the backtracking order of a greedy .* before the continuation). -/
def searchLast (f : List Char → Option α) : List Char → Option α
  | [] => f []
  | c :: cs =>
    match searchLast f cs with
    | some v => some v
    | none => f (c :: cs)

/-- The literal text before the bracketed generation counter in the regex. -/
def genMarker : List Char :=
  ['G', 'e', 'n', 'e', 'r', 'a', 't', 'i', 'o', 'n']

/-- The tail of the average-reward marker (all of it but its first letter). -/
def avgTail : List Char :=
  ['v', 'g', ' ', 'R', 'e', 'w', 'a', 'r', 'd', ':']

/-- The literal marker before the average-reward capture in the regex. -/
def avgMarker : List Char := 'A' :: avgTail

/-- The tail of the best-reward marker (all of it but its first letter). -/
def bestTail : List Char :=
  ['e', 's', 't', ' ', 'R', 'e', 'w', 'a', 'r', 'd', ':']

/-- The literal marker before the best-reward capture in the regex. -/
def bestMarker : List Char := 'B' :: bestTail

example : genMarker = "Generation".data := by decide
example : avgMarker = "Avg Reward:".data := by decide
example : bestMarker = "Best Reward:".data := by decide

/-- The literal opening bracket of the generation counter. -/
def lbrack : List Char := ['[']

/-- The literal slash between current and total generation counts. -/
def slash : List Char := ['/']

/-- The literal closing bracket and colon after the generation counts. -/
def rbrackColon : List Char := [']', ':']

/-- The four capture groups of the metric regex of evolution_service.py:
current generation, total generations (digit strings), average reward and
best reward (strings over digits and dots). -/
structure MetricGroups where
  gen : List Char
  totalGen : List Char
  avgRew : List Char
  bestRew : List Char
deriving DecidableEq

/-- Continuation for `Best Reward:\s*([\d\.]+)` : strip the marker, skip
whitespace greedily, take the maximal nonempty run of digits and dots. -/
def tryBestTail (s : List Char) : Option (List Char) :=
  match stripPre? bestMarker s with
  | none => none
  | some s1 =>
    if List.takeWhile isNumChar (List.dropWhile isWsChar s1) = [] then none
    else some (List.takeWhile isNumChar (List.dropWhile isWsChar s1))

/-- Continuation for `Avg Reward:\s*([\d\.]+).*Best Reward:\s*([\d\.]+)` :
strip the marker, skip whitespace, take the maximal nonempty numeric run,
then resolve the trailing greedy .* by searching for the rightmost
position where the best-reward tail matches. -/
def tryAvgTail (s : List Char) : Option (List Char × List Char) :=
  match stripPre? avgMarker s with
  | none => none
  | some s1 =>
    if List.takeWhile isNumChar (List.dropWhile isWsChar s1) = [] then none
    else
      match searchLast tryBestTail
          (List.dropWhile isNumChar (List.dropWhile isWsChar s1)) with
      | none => none
      | some b => some (List.takeWhile isNumChar (List.dropWhile isWsChar s1), b)

/-- Attempt the whole metric pattern anchored at the current position:
`Generation\s*\[(\d+)/(\d+)\]:` then the greedy `.*` resolved rightmost
first against the avg/best tail. -/
def matchAt (s : List Char) : Option MetricGroups :=
  match stripPre? genMarker s with
  | none => none
  | some s1 =>
    match stripPre? lbrack (List.dropWhile isWsChar s1) with
    | none => none
    | some s3 =>
      if List.takeWhile Char.isDigit s3 = [] then none
      else
        match stripPre? slash (List.dropWhile Char.isDigit s3) with
        | none => none
        | some s4 =>
          if List.takeWhile Char.isDigit s4 = [] then none
          else
            match stripPre? rbrackColon (List.dropWhile Char.isDigit s4) with
            | none => none
            | some s5 =>
              match searchLast tryAvgTail s5 with
              | none => none
              | some ab =>
                some ⟨List.takeWhile Char.isDigit s3, List.takeWhile Char.isDigit s4,
                      ab.1, ab.2⟩

/-- MetricParser.parse — the effect of `metric_pattern.search(decoded_line)`
in evolution_service.py: try the pattern at each position of the line,
leftmost first; `none` models NoMatch. -/
def parse (line : List Char) : Option MetricGroups :=
  searchFirst matchAt line

example :
    parse ("Generation [1/5]: Avg Reward: 0.45, Best Reward: 0.8".data)
      = some ⟨"1".data, "5".data, "0.45".data, "0.8".data⟩ := by decide

example : parse ("hello world".data) = none := by decide

example :
    parse ("[STDOUT] noise Generation [12/34]:   Avg Reward:  1.25 xx Best Reward: 0.99 tail".data)
      = some ⟨"12".data, "34".data, "1.25".data, "0.99".data⟩ := by decide

/-! ## Numeric conversions (int(), float(), str() of Python) -/

/-- Numeric value of an ASCII digit character. -/
def digitVal (c : Char) : Nat := c.toNat - 48

/-- Value of `int()` applied to a nonempty decimal digit string. -/
def natOfDigits (s : List Char) : Nat :=
  s.foldl (fun acc c => 10 * acc + digitVal c) 0

/-- Decimal rendering of a natural number (str() of Python on Nat),
via an explicit fuel argument for structural termination. -/
def decStrAux : Nat → Nat → List Char
  | 0, _ => []
  | fuel + 1, n =>
    if n < 10 then [Char.ofNat (48 + n)]
    else decStrAux fuel (n / 10) ++ [Char.ofNat (48 + n % 10)]

/-- Decimal rendering of a natural number. -/
def decStr (n : Nat) : List Char := decStrAux (n + 1) n

/-- Decimal rendering of an integer (str() of Python on int),
with a leading minus sign when negative. -/
def intToStr (n : Int) : List Char :=
  if n < 0 then '-' :: decStr n.natAbs else decStr n.toNat

/-- The value of Python float() on a string drawn from the regex class
[\d\.]+ as an exact rational: defined when the string is nonempty, has at
most one dot and at least one digit; the integer and fractional digit
parts stand over the matching power of ten.  (Machine floats are modelled
exactly; the value is built with mkRat so it evaluates by kernel
reduction.) -/
def pyFloat (s : List Char) : Option ℚ :=
  if s ≠ [] ∧ (∀ c ∈ s, isNumChar c = true) ∧ s.count '.' ≤ 1 ∧ s.any Char.isDigit then
    some (mkRat
      (natOfDigits (s.takeWhile (fun c => c ≠ '.')) *
          10 ^ ((s.dropWhile (fun c => c ≠ '.')).drop 1).length +
        natOfDigits ((s.dropWhile (fun c => c ≠ '.')).drop 1))
      (10 ^ ((s.dropWhile (fun c => c ≠ '.')).drop 1).length))
  else none

example : pyFloat ("0.45".data) = some (mkRat 45 100) := by decide

example : mkRat 45 100 = (45 : ℚ) / 100 := by
  rw [Rat.mkRat_eq_div]
  norm_num

example : pyFloat ("1.2.3".data) = none := by decide

example : pyFloat (".".data) = none := by decide

/-- The value 1 - q, computed on the numerator and denominator with mkRat
so that it evaluates by kernel reduction; the lemma below identifies it
with subtraction. -/
def oneMinus (q : ℚ) : ℚ := mkRat ((q.den : Int) - q.num) q.den

theorem oneMinus_eq (q : ℚ) : oneMinus q = 1 - q := by
  have hden : (q.den : ℚ) ≠ 0 := by
    exact_mod_cast q.den_nz
  rw [oneMinus, Rat.mkRat_eq_div]
  push_cast
  rw [sub_div, div_self hden, Rat.num_div_den]

/-! ## List lemmas for the matcher -/

theorem stripPre?_append (p s : List Char) : stripPre? p (p ++ s) = some s := by
  induction p with
  | nil => rfl
  | cons c cs ih => simp [stripPre?, ih]

theorem stripPre?_eq_some {p s r : List Char} (h : stripPre? p s = some r) :
    s = p ++ r := by
  induction p generalizing s with
  | nil => simpa [stripPre?] using h
  | cons c cs ih =>
    cases s with
    | nil => simp [stripPre?] at h
    | cons d ds =>
      by_cases hcd : c = d
      · subst hcd
        simp only [stripPre?, if_pos rfl] at h
        simpa using ih h
      · simp [stripPre?, hcd] at h

theorem stripPre?_none_of_ne {p s : List Char} (h : ∀ r, s ≠ p ++ r) :
    stripPre? p s = none := by
  cases hs : stripPre? p s with
  | none => rfl
  | some r => exact absurd (stripPre?_eq_some hs) (h r)

theorem mem_of_stripPre?_some {p s r : List Char} (h : stripPre? p s = some r)
    {c : Char} (hc : c ∈ p) : c ∈ s := by
  rw [stripPre?_eq_some h]
  exact List.mem_append_left _ hc

theorem takeWhile_append_eq (p : Char → Bool) (xs ys : List Char)
    (hxs : ∀ x ∈ xs, p x = true)
    (hys : ∀ c cs, ys = c :: cs → p c = false) :
    List.takeWhile p (xs ++ ys) = xs := by
  induction xs with
  | nil =>
    cases ys with
    | nil => rfl
    | cons c cs => simp [List.takeWhile, hys c cs rfl]
  | cons x xs ih =>
    have hx := hxs x (List.mem_cons_self x xs)
    simp only [List.cons_append, List.takeWhile, hx]
    simpa using ih (fun y hy => hxs y (List.mem_cons_of_mem _ hy))

theorem dropWhile_append_eq (p : Char → Bool) (xs ys : List Char)
    (hxs : ∀ x ∈ xs, p x = true)
    (hys : ∀ c cs, ys = c :: cs → p c = false) :
    List.dropWhile p (xs ++ ys) = ys := by
  induction xs with
  | nil =>
    cases ys with
    | nil => rfl
    | cons c cs => simp [List.dropWhile, hys c cs rfl]
  | cons x xs ih =>
    have hx := hxs x (List.mem_cons_self x xs)
    simp only [List.cons_append, List.dropWhile, hx]
    exact ih (fun y hy => hxs y (List.mem_cons_of_mem _ hy))

theorem searchFirst_eq_of_hit {f : List Char → Option α} {s : List Char} {v : α}
    (h : f s = some v) : searchFirst f s = some v := by
  cases s with
  | nil => simpa [searchFirst] using h
  | cons c cs => simp [searchFirst, h]

/-- No nonempty front slice of `xs` makes `f` succeed when glued onto `ys`. -/
def noEarlyHit (f : List Char → Option α) : List Char → List Char → Bool
  | [], _ => true
  | c :: cs, ys => (f ((c :: cs) ++ ys)).isNone && noEarlyHit f cs ys

theorem searchFirst_skip {f : List Char → Option α} (xs ys : List Char)
    (h : noEarlyHit f xs ys = true) :
    searchFirst f (xs ++ ys) = searchFirst f ys := by
  induction xs with
  | nil => rfl
  | cons c cs ih =>
    simp only [noEarlyHit, Bool.and_eq_true, Option.isNone_iff_eq_none] at h
    rw [List.cons_append]
    simp only [searchFirst]
    rw [show f (c :: (cs ++ ys)) = none from h.1]
    exact ih h.2

/-- `f` fails at every position of the text. -/
def failsOnAll (f : List Char → Option α) : List Char → Bool
  | [] => (f []).isNone
  | c :: cs => (f (c :: cs)).isNone && failsOnAll f cs

theorem searchLast_eq_none {f : List Char → Option α} {s : List Char}
    (h : failsOnAll f s = true) : searchLast f s = none := by
  induction s with
  | nil => simpa [searchLast, failsOnAll, Option.isNone_iff_eq_none] using h
  | cons c cs ih =>
    simp only [failsOnAll, Bool.and_eq_true, Option.isNone_iff_eq_none] at h
    simp [searchLast, ih h.2, h.1]

theorem searchLast_append_of_some {f : List Char → Option α} (xs : List Char)
    {ys : List Char} {v : α} (h : searchLast f ys = some v) :
    searchLast f (xs ++ ys) = some v := by
  induction xs with
  | nil => simpa using h
  | cons c cs ih => simp [searchLast, ih]

theorem searchLast_cons_of_hit {f : List Char → Option α} {c : Char}
    {cs : List Char} {v : α} (hnone : searchLast f cs = none)
    (h : f (c :: cs) = some v) : searchLast f (c :: cs) = some v := by
  simp [searchLast, hnone, h]

theorem searchFirst_some {f : List Char → Option α} {s : List Char} {v : α}
    (h : searchFirst f s = some v) :
    ∃ n, f (s.drop n) = some v := by
  induction s with
  | nil => exact ⟨0, by simpa [searchFirst] using h⟩
  | cons c cs ih =>
    simp only [searchFirst] at h
    cases hf : f (c :: cs) with
    | some w =>
      rw [hf] at h
      exact ⟨0, by simpa [hf] using h⟩
    | none =>
      rw [hf] at h
      obtain ⟨n, hn⟩ := ih h
      exact ⟨n + 1, by simpa using hn⟩

theorem searchLast_some {f : List Char → Option α} {s : List Char} {v : α}
    (h : searchLast f s = some v) :
    ∃ n, f (s.drop n) = some v := by
  induction s with
  | nil => exact ⟨0, by simpa [searchLast] using h⟩
  | cons c cs ih =>
    cases hrec : searchLast f cs with
    | some w =>
      have hw : searchLast f (c :: cs) = some w := by simp [searchLast, hrec]
      rw [hw] at h
      obtain ⟨n, hn⟩ := ih (hrec.trans h)
      exact ⟨n + 1, by simpa using hn⟩
    | none =>
      have hw : searchLast f (c :: cs) = f (c :: cs) := by simp [searchLast, hrec]
      rw [hw] at h
      exact ⟨0, by simpa using h⟩

theorem occursAnywhere_of_stripPre?_drop {pat s : List Char} {n : Nat} {r : List Char}
    (h : stripPre? pat (s.drop n) = some r) : occursAnywhere pat s = true := by
  induction s generalizing n with
  | nil =>
    simp only [List.drop_nil] at h
    simp [occursAnywhere, h]
  | cons c cs ih =>
    cases n with
    | zero =>
      simp only [List.drop_zero] at h
      simp [occursAnywhere, h]
    | succ m =>
      simp only [List.drop_succ_cons] at h
      simp [occursAnywhere, ih h]

theorem no_hit_of_occursAnywhere_false {pat s : List Char}
    (h : occursAnywhere pat s = false) (n : Nat) :
    stripPre? pat (s.drop n) = none := by
  induction s generalizing n with
  | nil =>
    cases hsp : stripPre? pat [] with
    | none => simpa using hsp
    | some r => simp [occursAnywhere, hsp] at h
  | cons c cs ih =>
    simp only [occursAnywhere, Bool.or_eq_false_iff] at h
    cases n with
    | zero =>
      cases hsp : stripPre? pat (c :: cs) with
      | none => simpa using hsp
      | some r => simp [hsp] at h
    | succ m => simpa using ih h.2 m

theorem mem_of_occursAnywhere {pat s : List Char} (h : occursAnywhere pat s = true)
    {c : Char} (hc : c ∈ pat) : c ∈ s := by
  induction s with
  | nil =>
    simp only [occursAnywhere, Option.isSome_iff_exists] at h
    obtain ⟨r, hr⟩ := h
    have := stripPre?_eq_some hr
    simp only [List.nil_eq, List.append_eq_nil] at this
    rw [this.1] at hc
    simp at hc
  | cons d ds ih =>
    simp only [occursAnywhere, Bool.or_eq_true, Option.isSome_iff_exists] at h
    rcases h with ⟨r, hr⟩ | h
    · exact mem_of_stripPre?_some hr hc
    · exact List.mem_cons_of_mem _ (ih h)

/-! ## Character-class facts and string-shape predicates -/

/-- A nonempty string of decimal digits (a \d+ capture). -/
def isDigitStrB (s : List Char) : Bool := !s.isEmpty && s.all Char.isDigit

/-- A nonempty string over digits and dots (a [\d\.]+ capture). -/
def isNumStrB (s : List Char) : Bool := !s.isEmpty && s.all isNumChar

/-- A (possibly empty) string of regex whitespace. -/
def isWsStrB (s : List Char) : Bool := s.all isWsChar

/-- The first character, if any, is not in the class [\d\.]. -/
def headNotNumB : List Char → Bool
  | [] => true
  | c :: _ => !isNumChar c

theorem not_num_of_ws {c : Char} (h : isWsChar c = true) : isNumChar c = false := by
  simp only [isWsChar, Bool.or_eq_true, decide_eq_true_eq] at h
  rcases h with ((((rfl | rfl) | rfl) | rfl) | rfl) | rfl <;> decide

theorem not_ws_of_num {c : Char} (h : isNumChar c = true) : isWsChar c = false := by
  cases hw : isWsChar c
  · rfl
  · rw [not_num_of_ws hw] at h
    cases h

theorem isNumChar_of_isDigit {c : Char} (h : c.isDigit = true) : isNumChar c = true := by
  simp [isNumChar, h]

theorem isDigitStrB_ne_nil {s : List Char} (h : isDigitStrB s = true) : s ≠ [] := by
  simp only [isDigitStrB, Bool.and_eq_true] at h
  simpa [List.isEmpty_iff] using h.1

theorem isDigitStrB_all {s : List Char} (h : isDigitStrB s = true) :
    ∀ c ∈ s, c.isDigit = true := by
  simp only [isDigitStrB, Bool.and_eq_true, List.all_eq_true] at h
  exact h.2

theorem isNumStrB_ne_nil {s : List Char} (h : isNumStrB s = true) : s ≠ [] := by
  simp only [isNumStrB, Bool.and_eq_true] at h
  simpa [List.isEmpty_iff] using h.1

theorem isNumStrB_all {s : List Char} (h : isNumStrB s = true) :
    ∀ c ∈ s, isNumChar c = true := by
  simp only [isNumStrB, Bool.and_eq_true, List.all_eq_true] at h
  exact h.2

theorem isWsStrB_all {s : List Char} (h : isWsStrB s = true) :
    ∀ c ∈ s, isWsChar c = true := by
  simpa only [isWsStrB, List.all_eq_true] using h

/-- Boundary fact: a concrete non-matching head character stops a scan. -/
theorem headNotSat_cons {p : Char → Bool} {d : Char} (hd : p d = false) (ys : List Char) :
    ∀ c cs, (d :: ys) = c :: cs → p c = false := by
  intro c cs h
  cases h
  exact hd

/-- A nonempty numeric capture cannot begin with whitespace. -/
theorem headNotWs_of_numStr {a : List Char} (ha : isNumStrB a = true) (rest : List Char) :
    ∀ c cs, a ++ rest = c :: cs → isWsChar c = false := by
  cases a with
  | nil => exact absurd rfl (isNumStrB_ne_nil ha)
  | cons a0 a' =>
    intro c cs h
    rw [List.cons_append] at h
    cases h
    exact not_ws_of_num (isNumStrB_all ha a0 (List.mem_cons_self _ _))

/-- A `headNotNumB` front stops a numeric scan even when followed by the
best-reward marker. -/
theorem headNotNum_append_best {mid2 : List Char} (h : headNotNumB mid2 = true)
    (rest : List Char) :
    ∀ c cs, mid2 ++ (bestMarker ++ rest) = c :: cs → isNumChar c = false := by
  cases mid2 with
  | nil =>
    intro c cs hh
    rw [List.nil_append] at hh
    have : ('B' :: (bestTail ++ rest)) = c :: cs := hh
    cases this
    decide
  | cons m0 m' =>
    intro c cs hh
    rw [List.cons_append] at hh
    cases hh
    simpa [headNotNumB] using h

theorem headNotNum_stop {post : List Char} (h : headNotNumB post = true) :
    ∀ c cs, post = c :: cs → isNumChar c = false := by
  intro c cs hh
  subst hh
  simpa [headNotNumB] using h

/-! ## The guarded positive direction of the matcher -/

theorem tryBestTail_eq (ws3 b post : List Char)
    (hws3 : isWsStrB ws3 = true) (hb : isNumStrB b = true)
    (hpost : headNotNumB post = true) :
    tryBestTail (bestMarker ++ (ws3 ++ (b ++ post))) = some b := by
  have hdw : List.dropWhile isWsChar (ws3 ++ (b ++ post)) = b ++ post :=
    dropWhile_append_eq _ _ _ (isWsStrB_all hws3) (headNotWs_of_numStr hb post)
  have htw : List.takeWhile isNumChar (b ++ post) = b :=
    takeWhile_append_eq _ _ _ (isNumStrB_all hb) (headNotNum_stop hpost)
  simp only [tryBestTail, stripPre?_append, hdw, htw, if_neg (isNumStrB_ne_nil hb)]

theorem searchLast_tryBestTail_eq (mid2 ws3 b post : List Char)
    (hws3 : isWsStrB ws3 = true) (hb : isNumStrB b = true)
    (hpost : headNotNumB post = true)
    (hlate : failsOnAll tryBestTail (bestTail ++ (ws3 ++ (b ++ post))) = true) :
    searchLast tryBestTail (mid2 ++ (bestMarker ++ (ws3 ++ (b ++ post)))) = some b := by
  apply searchLast_append_of_some
  have hnone : searchLast tryBestTail (bestTail ++ (ws3 ++ (b ++ post))) = none :=
    searchLast_eq_none hlate
  have hhit : tryBestTail ('B' :: (bestTail ++ (ws3 ++ (b ++ post)))) = some b :=
    tryBestTail_eq ws3 b post hws3 hb hpost
  exact searchLast_cons_of_hit hnone hhit

theorem tryAvgTail_eq (ws2 a mid2 ws3 b post : List Char)
    (hws2 : isWsStrB ws2 = true) (ha : isNumStrB a = true)
    (hmid2 : headNotNumB mid2 = true)
    (hws3 : isWsStrB ws3 = true) (hb : isNumStrB b = true)
    (hpost : headNotNumB post = true)
    (hlate : failsOnAll tryBestTail (bestTail ++ (ws3 ++ (b ++ post))) = true) :
    tryAvgTail (avgMarker ++ (ws2 ++ (a ++ (mid2 ++ (bestMarker ++ (ws3 ++ (b ++ post)))))))
      = some (a, b) := by
  have hdw : List.dropWhile isWsChar
      (ws2 ++ (a ++ (mid2 ++ (bestMarker ++ (ws3 ++ (b ++ post))))))
      = a ++ (mid2 ++ (bestMarker ++ (ws3 ++ (b ++ post)))) :=
    dropWhile_append_eq _ _ _ (isWsStrB_all hws2) (headNotWs_of_numStr ha _)
  have htw : List.takeWhile isNumChar
      (a ++ (mid2 ++ (bestMarker ++ (ws3 ++ (b ++ post))))) = a :=
    takeWhile_append_eq _ _ _ (isNumStrB_all ha) (headNotNum_append_best hmid2 _)
  have hdw2 : List.dropWhile isNumChar
      (a ++ (mid2 ++ (bestMarker ++ (ws3 ++ (b ++ post)))))
      = mid2 ++ (bestMarker ++ (ws3 ++ (b ++ post))) :=
    dropWhile_append_eq _ _ _ (isNumStrB_all ha) (headNotNum_append_best hmid2 _)
  simp only [tryAvgTail, stripPre?_append, hdw, htw, hdw2, if_neg (isNumStrB_ne_nil ha),
    searchLast_tryBestTail_eq mid2 ws3 b post hws3 hb hpost hlate]

theorem searchLast_tryAvgTail_eq (mid1 ws2 a mid2 ws3 b post : List Char)
    (hws2 : isWsStrB ws2 = true) (ha : isNumStrB a = true)
    (hmid2 : headNotNumB mid2 = true)
    (hws3 : isWsStrB ws3 = true) (hb : isNumStrB b = true)
    (hpost : headNotNumB post = true)
    (hlateB : failsOnAll tryBestTail (bestTail ++ (ws3 ++ (b ++ post))) = true)
    (hlateA : failsOnAll tryAvgTail
      (avgTail ++ (ws2 ++ (a ++ (mid2 ++ (bestMarker ++ (ws3 ++ (b ++ post))))))) = true) :
    searchLast tryAvgTail
      (mid1 ++ (avgMarker ++ (ws2 ++ (a ++ (mid2 ++ (bestMarker ++ (ws3 ++ (b ++ post))))))))
      = some (a, b) := by
  apply searchLast_append_of_some
  have hnone : searchLast tryAvgTail
      (avgTail ++ (ws2 ++ (a ++ (mid2 ++ (bestMarker ++ (ws3 ++ (b ++ post))))))) = none :=
    searchLast_eq_none hlateA
  have hhit : tryAvgTail
      ('A' :: (avgTail ++ (ws2 ++ (a ++ (mid2 ++ (bestMarker ++ (ws3 ++ (b ++ post))))))))
      = some (a, b) :=
    tryAvgTail_eq ws2 a mid2 ws3 b post hws2 ha hmid2 hws3 hb hpost hlateB
  exact searchLast_cons_of_hit hnone hhit

/-- The tail of a generation-template line from the anchor onward:
the marker, optional whitespace, bracketed counters, then arbitrary glue
around the average- and best-reward fields. -/
def templateTail (ws1 g t mid1 ws2 a mid2 ws3 b post : List Char) : List Char :=
  genMarker ++ (ws1 ++ (lbrack ++ (g ++ (slash ++ (t ++ (rbrackColon ++
    (mid1 ++ (avgMarker ++ (ws2 ++ (a ++ (mid2 ++ (bestMarker ++ (ws3 ++ (b ++ post))))))))))))))

/-- A full generation-template line: arbitrary text, then the template tail. -/
def templateStr (pre ws1 g t mid1 ws2 a mid2 ws3 b post : List Char) : List Char :=
  pre ++ templateTail ws1 g t mid1 ws2 a mid2 ws3 b post

/-- The generation template of the spec with the given field values: the
line decomposes into arbitrary surrounding text and the anchored markers
with exactly these digit-string counters and numeric reward fields. -/
def templateCaptures (line g t a b : List Char) : Prop :=
  ∃ pre ws1 mid1 ws2 mid2 ws3 post,
    line = templateStr pre ws1 g t mid1 ws2 a mid2 ws3 b post ∧
    isWsStrB ws1 = true ∧ isDigitStrB g = true ∧ isDigitStrB t = true ∧
    isWsStrB ws2 = true ∧ isNumStrB a = true ∧ isWsStrB ws3 = true ∧ isNumStrB b = true

/-- The generation template of the spec, as a predicate on lines. -/
def matchesTemplate (line : List Char) : Prop :=
  ∃ g t a b, templateCaptures line g t a b

theorem matchAt_template (ws1 g t mid1 ws2 a mid2 ws3 b post : List Char)
    (hws1 : isWsStrB ws1 = true) (hg : isDigitStrB g = true) (ht : isDigitStrB t = true)
    (hws2 : isWsStrB ws2 = true) (ha : isNumStrB a = true)
    (hmid2 : headNotNumB mid2 = true)
    (hws3 : isWsStrB ws3 = true) (hb : isNumStrB b = true)
    (hpost : headNotNumB post = true)
    (hlateB : failsOnAll tryBestTail (bestTail ++ (ws3 ++ (b ++ post))) = true)
    (hlateA : failsOnAll tryAvgTail
      (avgTail ++ (ws2 ++ (a ++ (mid2 ++ (bestMarker ++ (ws3 ++ (b ++ post))))))) = true) :
    matchAt (templateTail ws1 g t mid1 ws2 a mid2 ws3 b post) = some ⟨g, t, a, b⟩ := by
  have hdw1 : List.dropWhile isWsChar
      (ws1 ++ (lbrack ++ (g ++ (slash ++ (t ++ (rbrackColon ++ (mid1 ++ (avgMarker ++
        (ws2 ++ (a ++ (mid2 ++ (bestMarker ++ (ws3 ++ (b ++ post))))))))))))))
      = lbrack ++ (g ++ (slash ++ (t ++ (rbrackColon ++ (mid1 ++ (avgMarker ++
        (ws2 ++ (a ++ (mid2 ++ (bestMarker ++ (ws3 ++ (b ++ post)))))))))))) :=
    dropWhile_append_eq _ _ _ (isWsStrB_all hws1) (headNotSat_cons (by decide) _)
  have htw1 : List.takeWhile Char.isDigit
      (g ++ (slash ++ (t ++ (rbrackColon ++ (mid1 ++ (avgMarker ++
        (ws2 ++ (a ++ (mid2 ++ (bestMarker ++ (ws3 ++ (b ++ post)))))))))))) = g :=
    takeWhile_append_eq _ _ _ (isDigitStrB_all hg) (headNotSat_cons (by decide) _)
  have hdw2 : List.dropWhile Char.isDigit
      (g ++ (slash ++ (t ++ (rbrackColon ++ (mid1 ++ (avgMarker ++
        (ws2 ++ (a ++ (mid2 ++ (bestMarker ++ (ws3 ++ (b ++ post))))))))))))
      = slash ++ (t ++ (rbrackColon ++ (mid1 ++ (avgMarker ++
        (ws2 ++ (a ++ (mid2 ++ (bestMarker ++ (ws3 ++ (b ++ post)))))))))) :=
    dropWhile_append_eq _ _ _ (isDigitStrB_all hg) (headNotSat_cons (by decide) _)
  have htw2 : List.takeWhile Char.isDigit
      (t ++ (rbrackColon ++ (mid1 ++ (avgMarker ++
        (ws2 ++ (a ++ (mid2 ++ (bestMarker ++ (ws3 ++ (b ++ post)))))))))) = t :=
    takeWhile_append_eq _ _ _ (isDigitStrB_all ht) (headNotSat_cons (by decide) _)
  have hdw3 : List.dropWhile Char.isDigit
      (t ++ (rbrackColon ++ (mid1 ++ (avgMarker ++
        (ws2 ++ (a ++ (mid2 ++ (bestMarker ++ (ws3 ++ (b ++ post))))))))))
      = rbrackColon ++ (mid1 ++ (avgMarker ++
        (ws2 ++ (a ++ (mid2 ++ (bestMarker ++ (ws3 ++ (b ++ post)))))))) :=
    dropWhile_append_eq _ _ _ (isDigitStrB_all ht) (headNotSat_cons (by decide) _)
  have hsl : searchLast tryAvgTail
      (mid1 ++ (avgMarker ++ (ws2 ++ (a ++ (mid2 ++ (bestMarker ++ (ws3 ++ (b ++ post))))))))
      = some (a, b) :=
    searchLast_tryAvgTail_eq mid1 ws2 a mid2 ws3 b post hws2 ha hmid2 hws3 hb hpost
      hlateB hlateA
  simp only [templateTail, matchAt, stripPre?_append, hdw1, htw1, hdw2, htw2, hdw3,
    if_neg (isDigitStrB_ne_nil hg), if_neg (isDigitStrB_ne_nil ht), hsl]

/-- Under the unambiguity side conditions, the parser returns exactly the
captures of the template decomposition.  The three search-side conditions
say the decomposition is the one the leftmost-then-greedy strategy of the
regex selects: no earlier start position matches, and no marker occurrence
further right completes a match. -/
theorem parse_template (pre ws1 g t mid1 ws2 a mid2 ws3 b post : List Char)
    (hpre : noEarlyHit matchAt pre (templateTail ws1 g t mid1 ws2 a mid2 ws3 b post) = true)
    (hws1 : isWsStrB ws1 = true) (hg : isDigitStrB g = true) (ht : isDigitStrB t = true)
    (hws2 : isWsStrB ws2 = true) (ha : isNumStrB a = true)
    (hmid2 : headNotNumB mid2 = true)
    (hws3 : isWsStrB ws3 = true) (hb : isNumStrB b = true)
    (hpost : headNotNumB post = true)
    (hlateB : failsOnAll tryBestTail (bestTail ++ (ws3 ++ (b ++ post))) = true)
    (hlateA : failsOnAll tryAvgTail
      (avgTail ++ (ws2 ++ (a ++ (mid2 ++ (bestMarker ++ (ws3 ++ (b ++ post))))))) = true) :
    parse (templateStr pre ws1 g t mid1 ws2 a mid2 ws3 b post) = some ⟨g, t, a, b⟩ := by
  unfold parse templateStr
  rw [searchFirst_skip _ _ hpre]
  exact searchFirst_eq_of_hit
    (matchAt_template ws1 g t mid1 ws2 a mid2 ws3 b post hws1 hg ht hws2 ha hmid2
      hws3 hb hpost hlateB hlateA)

/-! ## Inversion: a successful parse exhibits a template decomposition -/

theorem takeWhile_strB_of_ne_nil {p : Char → Bool} {s : List Char}
    (hne : List.takeWhile p s ≠ []) :
    (!(List.takeWhile p s).isEmpty && (List.takeWhile p s).all p) = true := by
  simp only [Bool.and_eq_true, List.all_eq_true]
  constructor
  · simpa [List.isEmpty_iff] using hne
  · intro c hc
    exact List.mem_takeWhile_imp hc

theorem tryBestTail_some {s : List Char} {b : List Char} (h : tryBestTail s = some b) :
    ∃ s1, s = bestMarker ++ s1 ∧
      b = List.takeWhile isNumChar (List.dropWhile isWsChar s1) ∧
      isNumStrB b = true := by
  cases hsp : stripPre? bestMarker s with
  | none => simp [tryBestTail, hsp] at h
  | some s1 =>
    by_cases he : List.takeWhile isNumChar (List.dropWhile isWsChar s1) = []
    · simp [tryBestTail, hsp, he] at h
    · refine ⟨s1, stripPre?_eq_some hsp, ?_, ?_⟩
      · simp only [tryBestTail, hsp, if_neg he, Option.some.injEq] at h
        exact h.symm
      · simp only [tryBestTail, hsp, if_neg he, Option.some.injEq] at h
        rw [← h]
        exact takeWhile_strB_of_ne_nil he

theorem tryAvgTail_some {s : List Char} {ab : List Char × List Char}
    (h : tryAvgTail s = some ab) :
    ∃ s1, s = avgMarker ++ s1 ∧
      ab.1 = List.takeWhile isNumChar (List.dropWhile isWsChar s1) ∧
      isNumStrB ab.1 = true ∧
      searchLast tryBestTail
        (List.dropWhile isNumChar (List.dropWhile isWsChar s1)) = some ab.2 := by
  cases hsp : stripPre? avgMarker s with
  | none => simp [tryAvgTail, hsp] at h
  | some s1 =>
    by_cases he : List.takeWhile isNumChar (List.dropWhile isWsChar s1) = []
    · simp [tryAvgTail, hsp, he] at h
    · cases hsl : searchLast tryBestTail
          (List.dropWhile isNumChar (List.dropWhile isWsChar s1)) with
      | none => simp [tryAvgTail, hsp, he, hsl] at h
      | some b =>
        simp only [tryAvgTail, hsp, if_neg he, hsl, Option.some.injEq] at h
        refine ⟨s1, stripPre?_eq_some hsp, ?_, ?_, ?_⟩
        · rw [← h]
        · rw [← h]
          exact takeWhile_strB_of_ne_nil he
        · rw [← h]
          exact hsl

theorem matchAt_some {s : List Char} {gr : MetricGroups} (h : matchAt s = some gr) :
    ∃ ws1 mid1 ws2 mid2 ws3 post,
      s = templateTail ws1 gr.gen gr.totalGen mid1 ws2 gr.avgRew mid2 ws3 gr.bestRew post ∧
      isWsStrB ws1 = true ∧ isDigitStrB gr.gen = true ∧ isDigitStrB gr.totalGen = true ∧
      isWsStrB ws2 = true ∧ isNumStrB gr.avgRew = true ∧
      isWsStrB ws3 = true ∧ isNumStrB gr.bestRew = true := by
  cases h1 : stripPre? genMarker s with
  | none => simp [matchAt, h1] at h
  | some s1 =>
  cases h2 : stripPre? lbrack (List.dropWhile isWsChar s1) with
  | none => simp [matchAt, h1, h2] at h
  | some s3 =>
  by_cases hg : List.takeWhile Char.isDigit s3 = []
  · simp [matchAt, h1, h2, hg] at h
  cases h4 : stripPre? slash (List.dropWhile Char.isDigit s3) with
  | none => simp [matchAt, h1, h2, hg, h4] at h
  | some s4 =>
  by_cases ht : List.takeWhile Char.isDigit s4 = []
  · simp [matchAt, h1, h2, hg, h4, ht] at h
  cases h5 : stripPre? rbrackColon (List.dropWhile Char.isDigit s4) with
  | none => simp [matchAt, h1, h2, hg, h4, ht, h5] at h
  | some s5 =>
  cases h6 : searchLast tryAvgTail s5 with
  | none => simp [matchAt, h1, h2, hg, h4, ht, h5, h6] at h
  | some ab =>
  simp only [matchAt, h1, h2, if_neg hg, h4, if_neg ht, h5, h6, Option.some.injEq] at h
  obtain ⟨n, hn⟩ := searchLast_some h6
  obtain ⟨s6, hs6, hab1, hab1n, hsl2⟩ := tryAvgTail_some hn
  obtain ⟨m, hm⟩ := searchLast_some hsl2
  obtain ⟨s8, hs8, hb, hbn⟩ := tryBestTail_some hm
  subst h
  refine ⟨List.takeWhile isWsChar s1,
          s5.take n,
          List.takeWhile isWsChar s6,
          (List.dropWhile isNumChar (List.dropWhile isWsChar s6)).take m,
          List.takeWhile isWsChar s8,
          List.dropWhile isNumChar (List.dropWhile isWsChar s8), ?_, ?_, ?_, ?_, ?_, ?_, ?_, ?_⟩
  · rw [stripPre?_eq_some h1, templateTail]
    congr 1
    have hws1 := List.takeWhile_append_dropWhile isWsChar s1
    conv_lhs => rw [← hws1]
    congr 1
    rw [stripPre?_eq_some h2]
    congr 1
    have hg3 := List.takeWhile_append_dropWhile Char.isDigit s3
    conv_lhs => rw [← hg3]
    congr 1
    rw [stripPre?_eq_some h4]
    congr 1
    have ht4 := List.takeWhile_append_dropWhile Char.isDigit s4
    conv_lhs => rw [← ht4]
    congr 1
    rw [stripPre?_eq_some h5]
    congr 1
    have htn := List.take_append_drop n s5
    conv_lhs => rw [← htn]
    congr 1
    rw [hs6]
    congr 1
    have hws2 := List.takeWhile_append_dropWhile isWsChar s6
    conv_lhs => rw [← hws2]
    congr 1
    have hnum := List.takeWhile_append_dropWhile isNumChar (List.dropWhile isWsChar s6)
    conv_lhs => rw [← hnum]
    rw [← hab1]
    congr 1
    have htm := List.take_append_drop m
      (List.dropWhile isNumChar (List.dropWhile isWsChar s6))
    conv_lhs => rw [← htm]
    congr 1
    rw [hs8]
    congr 1
    have hws3 := List.takeWhile_append_dropWhile isWsChar s8
    conv_lhs => rw [← hws3]
    congr 1
    have hnum2 := List.takeWhile_append_dropWhile isNumChar (List.dropWhile isWsChar s8)
    conv_lhs => rw [← hnum2]
    rw [← hb]
  · simp only [isWsStrB, List.all_eq_true]
    intro c hc
    exact List.mem_takeWhile_imp hc
  · exact takeWhile_strB_of_ne_nil hg
  · exact takeWhile_strB_of_ne_nil ht
  · simp only [isWsStrB, List.all_eq_true]
    intro c hc
    exact List.mem_takeWhile_imp hc
  · exact hab1n
  · simp only [isWsStrB, List.all_eq_true]
    intro c hc
    exact List.mem_takeWhile_imp hc
  · exact hbn

/-- Soundness of the parser against the spec template: a successful parse
means the line matches the generation template, with the returned captures
as one of its decompositions. -/
theorem matchesTemplate_of_parse_some {line : List Char} {gr : MetricGroups}
    (h : parse line = some gr) : matchesTemplate line := by
  obtain ⟨n, hn⟩ := searchFirst_some h
  obtain ⟨ws1, mid1, ws2, mid2, ws3, post, heq, hc⟩ := matchAt_some hn
  refine ⟨gr.gen, gr.totalGen, gr.avgRew, gr.bestRew, line.take n, ws1, mid1, ws2, mid2,
    ws3, post, ?_, hc.1, hc.2.1, hc.2.2.1, hc.2.2.2.1, hc.2.2.2.2.1,
    hc.2.2.2.2.2.1, hc.2.2.2.2.2.2⟩
  rw [templateStr, ← heq]
  exact (List.take_append_drop n line).symm

/-- Contrapositive form: a line with no template decomposition yields NoMatch. -/
theorem parse_none_of_not_matchesTemplate {line : List Char}
    (h : ¬ matchesTemplate line) : parse line = none := by
  cases hp : parse line with
  | none => rfl
  | some gr => exact absurd (matchesTemplate_of_parse_some hp) h

theorem matchesTemplate_mem {line : List Char} (h : matchesTemplate line) :
    'G' ∈ line ∧ '[' ∈ line := by
  obtain ⟨g, t, a, b, pre, ws1, mid1, ws2, mid2, ws3, post, heq, -⟩ := h
  subst heq
  constructor <;> simp [templateStr, templateTail, genMarker, lbrack, List.mem_append]

theorem parse_some_mem {line : List Char} {gr : MetricGroups}
    (h : parse line = some gr) : 'G' ∈ line ∧ '[' ∈ line :=
  matchesTemplate_mem (matchesTemplate_of_parse_some h)

theorem parse_none_of_no_G {line : List Char} (h : 'G' ∉ line) : parse line = none := by
  cases hp : parse line with
  | none => rfl
  | some gr => exact absurd (parse_some_mem hp).1 h

theorem parse_none_of_no_bracket {line : List Char} (h : '[' ∉ line) :
    parse line = none := by
  cases hp : parse line with
  | none => rfl
  | some gr => exact absurd (parse_some_mem hp).2 h

/-! ## Decimal digit strings and str() facts -/

theorem digit_char_isDigit {n : Nat} (h : n < 10) :
    (Char.ofNat (48 + n)).isDigit = true := by
  interval_cases n <;> decide

theorem decStrAux_all {fuel n : Nat} : ∀ c ∈ decStrAux fuel n, c.isDigit = true := by
  induction fuel generalizing n with
  | zero =>
    intro c hc
    simp [decStrAux] at hc
  | succ f ih =>
    intro c hc
    simp only [decStrAux] at hc
    by_cases hn : n < 10
    · rw [if_pos hn] at hc
      simp only [List.mem_singleton] at hc
      subst hc
      exact digit_char_isDigit hn
    · rw [if_neg hn] at hc
      rcases List.mem_append.1 hc with hmem | hmem
      · exact ih _ hmem
      · simp only [List.mem_singleton] at hmem
        subst hmem
        exact digit_char_isDigit (Nat.mod_lt _ (by norm_num))

theorem decStr_ne_nil (n : Nat) : decStr n ≠ [] := by
  simp only [decStr, decStrAux]
  by_cases hn : n < 10
  · simp [hn]
  · simp [hn]

theorem isDigitStrB_decStr (n : Nat) : isDigitStrB (decStr n) = true := by
  simp only [isDigitStrB, Bool.and_eq_true, List.all_eq_true]
  refine ⟨by simpa [List.isEmpty_iff] using decStr_ne_nil n, fun c hc => ?_⟩
  exact decStrAux_all c hc

theorem intToStr_mem {k : Int} {c : Char} (hc : c ∈ intToStr k) :
    c.isDigit = true ∨ c = '-' := by
  simp only [intToStr] at hc
  by_cases hk : k < 0
  · rw [if_pos hk] at hc
    rcases List.mem_cons.1 hc with rfl | h
    · right; rfl
    · left
      simp only [decStr] at h
      exact decStrAux_all _ h
  · rw [if_neg hk] at hc
    left
    simp only [decStr] at hc
    exact decStrAux_all _ hc

/-! ## The pump loop of run_evolution (evolution_service.py) -/

/-- The metric payload run_evolution serializes after the METRIC_JSON tag:
step = int(gen) * 10, reward = float(avg), success_rate = float(best)
(best reward proxied as success rate), loss = 1.0 - float(avg). -/
structure MetricPayload where
  step : Nat
  reward : ℚ
  success_rate : ℚ
  loss : ℚ
deriving DecidableEq

/-- Building the payload from the captures; `none` models the ValueError
that float() raises on a capture that is not a valid decimal number
(the average is converted before the best reward). -/
def payloadOfGroups (gr : MetricGroups) : Option MetricPayload :=
  match pyFloat gr.avgRew, pyFloat gr.bestRew with
  | some qa, some qb => some ⟨natOfDigits gr.gen * 10, qa, qb, oneMinus qa⟩
  | _, _ => none

/-- The str() text of the ValueError float() raises, naming the first
capture whose conversion fails. -/
def floatErrText (gr : MetricGroups) : List Char :=
  "could not convert string to float: ".data ++
    (if (pyFloat gr.avgRew).isSome then gr.bestRew else gr.avgRew)

/-- One event put on the log queue by the pump pipeline.  On the wire each
is a string: rawLog l is the line prefixed by the STDOUT tag, metricJson p
is the METRIC_JSON tag followed by the JSON payload, notice t is t itself. -/
inductive Ev where
  | rawLog (line : List Char)
  | metricJson (p : MetricPayload)
  | notice (text : List Char)
deriving DecidableEq

/-- The yields of run_evolution for a single decoded child line: the raw
log always comes first; a metric follows exactly when the regex matches;
a failed float() conversion aborts the generator (second component). -/
def runEvolutionLine (line : List Char) : List Ev × Option (List Char) :=
  match parse line with
  | none => ([Ev.rawLog line], none)
  | some gr =>
    match payloadOfGroups gr with
    | some p => ([Ev.rawLog line, Ev.metricJson p], none)
    | none => ([Ev.rawLog line], some (floatErrText gr))

/-- The ERROR notice text citing a nonzero exit code. -/
def failNoticeText (rc : Int) : List Char :=
  "[ERROR] Evolution process failed with exit code ".data ++ intToStr rc

/-- The terminal notices of run_evolution once the child exits:
two SYSTEM lines on exit code 0, one ERROR line citing the code otherwise. -/
def exitNotices (rc : Int) : List Ev :=
  if rc = 0 then
    [Ev.notice ("[SYSTEM] Evolution process completed successfully.".data),
     Ev.notice ("[SYSTEM] Best agent saved to workspace/outputs/best_agent.pt".data)]
  else
    [Ev.notice (failNoticeText rc)]

/-- All yields of run_evolution over the child's decoded output lines and
exit code; the second component is the text of an escaped exception, which
cuts the stream short when present. -/
def runEvolution : List (List Char) → Int → List Ev × Option (List Char)
  | [], rc => (exitNotices rc, none)
  | line :: rest, rc =>
    match runEvolutionLine line with
    | (evs, some e) => (evs, some e)
    | (evs, none) =>
      (evs ++ (runEvolution rest rc).1, (runEvolution rest rc).2)

/-- The probe substring start_training checks each queue line for before
firing the completion webhook. -/
def completedProbe : List Char := "Evolution process completed".data

/-- The tag prepended to every raw child line before it is queued. -/
def stdoutTag : List Char := "[STDOUT] ".data

/-- Whether the queue string of an event contains the completion probe.
A metricJson queue string is the METRIC_JSON tag plus a JSON object over
the keys step, reward, success_rate, loss and decimal numbers; it never
contains the letter v that the probe word Evolution requires, so the
substring test is identically false there. -/
def evContainsCompleted : Ev → Bool
  | Ev.rawLog l => occursAnywhere completedProbe (stdoutTag ++ l)
  | Ev.metricJson _ => false
  | Ev.notice t => occursAnywhere completedProbe t

/-- What the process_runner task of server.py does with the generator:
queue every yield (plus the caught-exception notice, if any), and attempt
one TRAINING_COMPLETE webhook per queued line containing the probe when an
external url is configured. -/
structure RunnerResult where
  puts : List Ev
  hooks : List (List Char × List Char × List Char)
deriving DecidableEq

/-- The ERROR tag the runner puts when the generator raises. -/
def runnerErrTag : List Char := "[ERROR] Exception in runner: ".data

def processRunner (url token : List Char) (lines : List (List Char)) (rc : Int) :
    RunnerResult :=
  { puts := (runEvolution lines rc).1 ++
      (match (runEvolution lines rc).2 with
       | some e => [Ev.notice (runnerErrTag ++ e)]
       | none => []),
    hooks := if url.isEmpty then []
      else ((runEvolution lines rc).1.filter evContainsCompleted).map
        (fun _ => (url, token, "TRAINING_COMPLETE".data)) }

/-- The SystemNotice texts among a queue of events. -/
def noticeTexts (evs : List Ev) : List (List Char) :=
  evs.filterMap (fun e => match e with | Ev.notice t => some t | _ => none)

/-! ## The log queue of server.py as an event bus

`log_queue` is one shared `asyncio.Queue`.  Each WebSocket session loops
`await log_queue.get()` and forwards what it got to its own client, so a
dequeue hands the event to exactly one session.  The model records every
publish and every delivery; a deliver op is a completed `get` by the named
session (possible only once attached, and only when the queue is nonempty,
since `get` suspends on an empty queue). -/

inductive BusOp (α : Type) where
  | attach (sid : Nat)
  | publish (e : α)
  | deliver (sid : Nat)

structure BusState (α : Type) where
  queue : List α
  attached : List Nat
  published : List α
  delivered : List (Nat × α)
deriving DecidableEq

def busInit (α : Type) : BusState α := ⟨[], [], [], []⟩

def busStep (s : BusState α) : BusOp α → BusState α
  | BusOp.attach sid => { s with attached := sid :: s.attached }
  | BusOp.publish e =>
    { s with queue := s.queue ++ [e], published := s.published ++ [e] }
  | BusOp.deliver sid =>
    if sid ∈ s.attached then
      match s.queue with
      | [] => s
      | e :: rest =>
        { s with queue := rest, delivered := s.delivered ++ [(sid, e)] }
    else s

def busRun (ops : List (BusOp α)) : BusState α :=
  ops.foldl busStep (busInit α)

/-- The events a given session has forwarded to its client, in order. -/
def receivedBy (sid : Nat) (s : BusState α) : List α :=
  (s.delivered.filter (fun p => p.1 = sid)).map Prod.snd

/-! ## Server state and the start/stop/job endpoints (server.py) -/

/-- The child-process handle: `alive` is `poll() is None`. -/
structure Proc where
  alive : Bool
deriving DecidableEq

/-- The mutable server facts the endpoints consult: the service's process
handle (never reset once assigned) and the log queue contents. -/
structure ServerState where
  process : Option Proc
  queue : List (List Char)
deriving DecidableEq

/-- EvolutionService.stop: terminate, wait up to 5s, kill on timeout.  The
process is no longer running afterwards, but `self.process` keeps holding
the handle — it is never cleared. -/
def serviceStop (_ : Proc) : Proc := { alive := false }

/-- The /api/stop endpoint behaviour: if a process handle exists (whatever its
state), stop it, queue the termination notice and answer stopped;
otherwise answer no_process_running. -/
def stopEndpoint (s : ServerState) : ServerState × List Char :=
  match s.process with
  | some p =>
    ({ process := some (serviceStop p),
       queue := s.queue ++ ["[SYSTEM] Process terminated by user.".data] },
     "stopped".data)
  | none => (s, "no_process_running".data)

/-- The busy test of /api/start and /api/integration/job:
`process and process.poll() is None`. -/
def runningB (s : ServerState) : Bool :=
  match s.process with
  | some p => p.alive
  | none => false

/-- What /api/start returns and schedules. -/
inductive StartResult where
  | busy     -- HTTPException 400, Training already running
  | started  -- status started, engine AgentEvolver Adapter
deriving DecidableEq

structure StartOutcome where
  state : ServerState
  result : StartResult
  scheduledHook : Bool    -- a TRAINING_STARTED webhook was queued as a background task
  runnerSpawned : Bool    -- asyncio.create_task(process_runner()) was issued
deriving DecidableEq

/-- The /api/start endpoint up to its response: the busy branch raises
before reading the config or touching any state; the success branch
schedules the Started webhook (when an external url is configured) and
spawns the runner task. -/
def startEndpoint (s : ServerState) (externalUrl : List Char) : StartOutcome :=
  if runningB s then ⟨s, StartResult.busy, false, false⟩
  else ⟨s, StartResult.started, !externalUrl.isEmpty, true⟩

inductive JobResult where
  | busy409  -- HTTPException 409, Busy
  | queued
deriving DecidableEq

/-- The /api/integration/job endpoint: same busy test with a conflict
response; on success it queues a system notice and acknowledges. -/
def triggerJobEndpoint (s : ServerState) (taskId : List Char) :
    ServerState × JobResult :=
  if runningB s then (s, JobResult.busy409)
  else
    ({ s with queue := s.queue ++ ["[SYSTEM] External Job Triggered: ".data ++ taskId] },
     JobResult.queued)

/-! ## Telemetry ingestion (/api/integration/telemetry) -/

/-- The parsed request body: step and reward are required, metrics is a
mapping, log_message is optional. -/
structure ExternalTelemetry where
  step : Int
  reward : ℚ
  metrics : List (List Char × ℚ)
  log_message : Option (List Char)

/-- `metrics.get(key, 0.0)`. -/
def dictGet (m : List (List Char × ℚ)) (k : List Char) (d : ℚ) : ℚ :=
  match m.find? (fun p => decide (p.1 = k)) with
  | some p => p.2
  | none => d

/-- The metric record ingested telemetry republishes: exactly these four
fields are serialized. -/
structure TelemetryPayload where
  step : Int
  reward : ℚ
  success_rate : ℚ
  loss : ℚ
deriving DecidableEq

/-- An event the telemetry endpoint puts on the log queue. -/
inductive TelemetryEv where
  | externalLog (msg : List Char)       -- the EXTERNAL tag plus the message
  | metricJson (p : TelemetryPayload)   -- the METRIC_JSON tag plus the payload
deriving DecidableEq

/-- The body of ingest_telemetry: queue the tagged log message when
`data.log_message` is truthy (present and nonempty), then queue exactly one
metric record, then answer accepted. -/
def ingestTelemetry (d : ExternalTelemetry) : List TelemetryEv × List Char :=
  ((match d.log_message with
    | some m => if m.isEmpty then [] else [TelemetryEv.externalLog m]
    | none => []) ++
   [TelemetryEv.metricJson
      ⟨d.step, d.reward, dictGet d.metrics ("success_rate".data) 0,
       dictGet d.metrics ("loss".data) 0⟩],
   "accepted".data)

/-! ## WebhookService.send_event (webhook_service.py) -/

/-- The observable outcome of the one HTTP POST a send may attempt. -/
inductive NetOutcome where
  | status (code : Nat)  -- a response arrived with this status code
  | netFail              -- the request raised (timeout, connection error)
deriving DecidableEq

/-- One attempted POST: the url, the signature and event-type header
values, and the request timeout in seconds. -/
structure NetCall where
  url : List Char
  signatureHdr : List Char
  eventTypeHdr : List Char
  timeoutSecs : Nat
deriving DecidableEq

inductive SendOutcome where
  | ok      -- send_event returned normally
  | raised  -- an exception escaped to the caller
deriving DecidableEq

/-- send_event: a falsy url returns at once with no network call; otherwise
exactly one POST is attempted with a 5s timeout, a non-2xx status is logged
as a warning, and any exception is caught and logged — nothing propagates. -/
def sendEvent (url secret eventType : List Char) (outcome : NetOutcome) :
    List NetCall × SendOutcome :=
  if url.isEmpty then ([], SendOutcome.ok)
  else
    ([⟨url, secret, eventType, 5⟩],
     match outcome with
     | NetOutcome.status _ => SendOutcome.ok
     | NetOutcome.netFail => SendOutcome.ok)

/-! ## The fallback simulator (agent_evolver_shim.py) -/

/-- One Evaluating Agent i/P... Score: s line.  The score rendering of the
random float is a parameter (floating-point formatting abstracted). -/
def evalLine (i pop : Nat) (score : List Char) : List Char :=
  "Evaluating Agent ".data ++ decStr i ++ "/".data ++ decStr pop ++
    "... Score: ".data ++ score

/-- The per-generation banner line (the text after the leading newline). -/
def startGenLine (g : Nat) : List Char :=
  "--- Starting Generation ".data ++ decStr g ++ " ---".data

/-- The CRITICAL line matching the dashboard regex, for generation g of
gens, with the given 4-digit renderings of the average and best rewards.
Spelled over the anchored marker pieces; the example below ties it to the
literal f-string of the source. -/
def metricLine (g gens : Nat) (avg best : List Char) : List Char :=
  genMarker ++ ([' '] ++ (lbrack ++ (decStr g ++ (slash ++ (decStr gens ++
    (rbrackColon ++ ([' '] ++ (avgMarker ++ ([' '] ++ (avg ++ ([',', ' '] ++
      (bestMarker ++ ([' '] ++ best)))))))))))))

example :
    metricLine 1 5 ("0.4500".data) ("0.8000".data)
      = "Generation [1/5]: Avg Reward: 0.4500, Best Reward: 0.8000".data := by decide

/-- The lines one generation cycle prints: a blank line and the banner,
the per-agent evaluation lines, then the metric line. -/
def simGenBlock (gens pop g : Nat) (scoreF : Nat → Nat → List Char)
    (avgF bestF : Nat → List Char) : List (List Char) :=
  [[], startGenLine g] ++
    (List.range pop).map (fun i => evalLine (i + 1) pop (scoreF g (i + 1))) ++
    [metricLine g gens (avgF g) (bestF g)]

/-- The two lines printed before the generation loop. -/
def simHeadLines (pop : Nat) : List (List Char) :=
  ["--- ModelScope AgentEvolver (SIMULATION) ---".data,
   "[INFO] Initializing population of ".data ++ decStr pop ++ " agents...".data]

/-- The lines printed after the loop: a blank line, the finish notice, and
the saved-checkpoint notice naming the output directory. -/
def simTailLines (outDir : List Char) : List (List Char) :=
  [[], "[INFO] Optimization Finished.".data,
   "[INFO] Saved best agent to ".data ++ outDir ++ "/best_agent.pt".data]

/-- What run_fallback_simulation emits and writes: its stdout lines in
order, and the files it creates (the checkpoint artifact in the configured
output directory). -/
structure SimOutput where
  lines : List (List Char)
  files : List (List Char × List Char)
deriving DecidableEq

def runFallbackSimulation (gens pop : Nat) (scoreF : Nat → Nat → List Char)
    (avgF bestF : Nat → List Char) (outDir : List Char) : SimOutput :=
  { lines := simHeadLines pop ++
      ((List.range gens).map (fun k => simGenBlock gens pop (k + 1) scoreF avgF bestF)).flatten ++
      simTailLines outDir,
    files := [(outDir ++ "/best_agent.pt".data, "mock_checkpoint_data".data)] }

/-! ## Failure of the tail continuations away from their markers -/

theorem failsOnAll_tryBestTail {s : List Char} (h : 'B' ∉ s) :
    failsOnAll tryBestTail s = true := by
  induction s with
  | nil => decide
  | cons c cs ih =>
    simp only [failsOnAll, Bool.and_eq_true]
    refine ⟨?_, ih (fun hm => h (List.mem_cons_of_mem _ hm))⟩
    cases hv : tryBestTail (c :: cs) with
    | none => rfl
    | some b =>
      obtain ⟨s1, heq, -, -⟩ := tryBestTail_some hv
      exact absurd (heq ▸ List.mem_append_left s1 (List.mem_cons_self 'B' bestTail)) h

theorem failsOnAll_tryAvgTail {s : List Char} (h : 'A' ∉ s) :
    failsOnAll tryAvgTail s = true := by
  induction s with
  | nil => decide
  | cons c cs ih =>
    simp only [failsOnAll, Bool.and_eq_true]
    refine ⟨?_, ih (fun hm => h (List.mem_cons_of_mem _ hm))⟩
    cases hv : tryAvgTail (c :: cs) with
    | none => rfl
    | some ab =>
      obtain ⟨s1, heq, -⟩ := tryAvgTail_some hv
      exact absurd (heq ▸ List.mem_append_left s1 (List.mem_cons_self 'A' avgTail)) h

/-! ## Occurrences confined to a front segment -/

theorem stripPre?_fits {front : List Char} {d : Char} {b u r : List Char}
    (hd : d ∉ b) (h : stripPre? (front ++ [d]) (u ++ b) = some r) :
    (stripPre? (front ++ [d]) u).isSome = true := by
  induction front generalizing u with
  | nil =>
    cases u with
    | nil =>
      exact absurd (mem_of_stripPre?_some (by simpa using h) (List.mem_singleton_self d)) hd
    | cons c u' =>
      rw [List.nil_append] at h ⊢
      rw [List.cons_append] at h
      simp only [stripPre?] at h ⊢
      by_cases hdc : d = c
      · simp [hdc]
      · rw [if_neg hdc] at h
        cases h
  | cons p ps ih =>
    cases u with
    | nil =>
      have hdm : d ∈ (p :: ps) ++ [d] :=
        List.mem_append_right _ (List.mem_singleton_self d)
      exact absurd (mem_of_stripPre?_some (by simpa using h) hdm) hd
    | cons c u' =>
      rw [List.cons_append] at h
      simp only [List.cons_append, stripPre?] at h ⊢
      by_cases hpc : p = c
      · rw [if_pos hpc] at h ⊢
        exact ih h
      · rw [if_neg hpc] at h
        cases h

theorem occurs_confined {front : List Char} {d : Char} {a b : List Char}
    (hd : d ∉ b) (h : occursAnywhere (front ++ [d]) (a ++ b) = true) :
    occursAnywhere (front ++ [d]) a = true := by
  induction a with
  | nil =>
    have hdm : d ∈ front ++ [d] := List.mem_append_right _ (List.mem_singleton_self d)
    exact absurd (mem_of_occursAnywhere (by simpa using h) hdm) hd
  | cons c a' ih =>
    rw [List.cons_append] at h
    simp only [occursAnywhere, Bool.or_eq_true] at h ⊢
    rcases h with h | h
    · left
      rw [Option.isSome_iff_exists] at h
      obtain ⟨r, hr⟩ := h
      exact stripPre?_fits hd (show stripPre? (front ++ [d]) ((c :: a') ++ b) = some r
        by simpa using hr)
    · right
      exact ih h

/-! ## Character content of rendered numbers -/

theorem mem_decStr_isDigit {n : Nat} {c : Char} (hc : c ∈ decStr n) :
    c.isDigit = true := by
  simp only [decStr] at hc
  exact decStrAux_all _ hc

theorem ne_of_digit {c e : Char} (hc : c.isDigit = true) (he : e.isDigit = false) :
    c ≠ e := by
  intro hce
  rw [hce, he] at hc
  cases hc

theorem ne_of_num {c e : Char} (hc : isNumChar c = true) (he : isNumChar e = false) :
    c ≠ e := by
  intro hce
  rw [hce, he] at hc
  cases hc

theorem no_mem_append {e : Char} {xs ys : List Char} (h1 : e ∉ xs) (h2 : e ∉ ys) :
    e ∉ xs ++ ys :=
  fun hm => (List.mem_append.1 hm).elim h1 h2

theorem not_mem_numStr {s : List Char} (hs : ∀ c ∈ s, isNumChar c = true)
    {e : Char} (he : isNumChar e = false) : e ∉ s :=
  fun hm => by rw [hs e hm] at he; cases he

theorem not_mem_decStr {n : Nat} {e : Char} (he : e.isDigit = false) :
    e ∉ decStr n :=
  fun hm => by rw [mem_decStr_isDigit hm] at he; cases he

/-! ## Parsing the simulator's lines -/

/-- The metric line of the simulator (and of the real library's format)
parses to exactly its four fields, for any numeric reward renderings. -/
theorem parse_metricLine (g gens : Nat) (a b : List Char)
    (ha : isNumStrB a = true) (hb : isNumStrB b = true) :
    parse (metricLine g gens a b) = some ⟨decStr g, decStr gens, a, b⟩ := by
  have heq : metricLine g gens a b
      = templateStr [] [' '] (decStr g) (decStr gens) [' '] [' '] a [',', ' '] [' '] b [] := by
    simp [metricLine, templateStr, templateTail]
  rw [heq]
  apply parse_template
  · rfl
  · decide
  · exact isDigitStrB_decStr g
  · exact isDigitStrB_decStr gens
  · decide
  · exact ha
  · decide
  · decide
  · exact hb
  · decide
  · apply failsOnAll_tryBestTail
    refine no_mem_append (by decide) (no_mem_append (by decide) (no_mem_append ?_ (by decide)))
    exact not_mem_numStr (isNumStrB_all hb) (by decide)
  · apply failsOnAll_tryAvgTail
    refine no_mem_append (by decide) (no_mem_append (by decide) (no_mem_append ?_
      (no_mem_append (by decide) (no_mem_append (by decide) (no_mem_append (by decide)
        (no_mem_append ?_ (by decide)))))))
    · exact not_mem_numStr (isNumStrB_all ha) (by decide)
    · exact not_mem_numStr (isNumStrB_all hb) (by decide)

theorem parse_evalLine (i pop : Nat) (score : List Char)
    (hs : ∀ c ∈ score, isNumChar c = true) :
    parse (evalLine i pop score) = none := by
  apply parse_none_of_no_bracket
  simp only [evalLine]
  refine no_mem_append (no_mem_append (no_mem_append (no_mem_append
    (no_mem_append (by decide) ?_) (by decide)) ?_) (by decide)) ?_
  · exact not_mem_decStr (by decide)
  · exact not_mem_decStr (by decide)
  · exact not_mem_numStr hs (by decide)

theorem parse_startGenLine (g : Nat) : parse (startGenLine g) = none := by
  apply parse_none_of_no_bracket
  simp only [startGenLine]
  exact no_mem_append (no_mem_append (by decide) (not_mem_decStr (by decide))) (by decide)

theorem parse_initLine (pop : Nat) :
    parse ("[INFO] Initializing population of ".data ++ decStr pop ++ " agents...".data)
      = none := by
  apply parse_none_of_no_G
  exact no_mem_append (no_mem_append (by decide) (not_mem_decStr (by decide))) (by decide)

theorem parse_savedLine (outDir : List Char) (hdir : 'G' ∉ outDir) :
    parse ("[INFO] Saved best agent to ".data ++ outDir ++ "/best_agent.pt".data)
      = none := by
  apply parse_none_of_no_G
  exact no_mem_append (no_mem_append (by decide) hdir) (by decide)

/-! ## Structure lemmas about the pump loop -/

/-- The completion probe never occurs in the failure notice: the probe ends
in the word completed, whose final letter cannot come from the rendered
exit code (digits and a minus sign only), and the fixed failure text says
failed, not completed. -/
theorem probe_not_in_failNotice (rc : Int) :
    occursAnywhere completedProbe (failNoticeText rc) = false := by
  cases hoc : occursAnywhere completedProbe (failNoticeText rc) with
  | false => rfl
  | true =>
    exfalso
    have hp : completedProbe = "Evolution process complete".data ++ ['d'] := by decide
    rw [hp, failNoticeText] at hoc
    have hd : 'd' ∉ intToStr rc := by
      intro hm
      rcases intToStr_mem hm with h | h
      · exact absurd h (by decide)
      · exact absurd h (by decide)
    exact absurd (occurs_confined hd hoc) (by decide)

theorem noticeTexts_append (xs ys : List Ev) :
    noticeTexts (xs ++ ys) = noticeTexts xs ++ noticeTexts ys := by
  simp [noticeTexts, List.filterMap_append]

theorem runEvolution_notices (lines : List (List Char)) (rc : Int)
    (hclean : (runEvolution lines rc).2 = none) :
    noticeTexts (runEvolution lines rc).1 = noticeTexts (exitNotices rc) := by
  induction lines with
  | nil => rfl
  | cons line rest ih =>
    cases hpl : parse line with
    | none =>
      have hline : runEvolutionLine line = ([Ev.rawLog line], none) := by
        simp [runEvolutionLine, hpl]
      simp only [runEvolution, hline] at hclean ⊢
      rw [noticeTexts_append, ih hclean]
      simp [noticeTexts]
    | some gr =>
      cases hpay : payloadOfGroups gr with
      | none =>
        have hline : runEvolutionLine line = ([Ev.rawLog line], some (floatErrText gr)) := by
          simp [runEvolutionLine, hpl, hpay]
        simp [runEvolution, hline] at hclean
      | some p =>
        have hline : runEvolutionLine line
            = ([Ev.rawLog line, Ev.metricJson p], none) := by
          simp [runEvolutionLine, hpl, hpay]
        simp only [runEvolution, hline] at hclean ⊢
        rw [noticeTexts_append, ih hclean]
        simp [noticeTexts]

theorem runEvolution_no_completed_hit (lines : List (List Char)) (rc : Int)
    (hrc : rc ≠ 0)
    (hlines : ∀ l ∈ lines, occursAnywhere completedProbe (stdoutTag ++ l) = false) :
    (runEvolution lines rc).1.filter evContainsCompleted = [] := by
  induction lines with
  | nil =>
    simp only [runEvolution, exitNotices, if_neg hrc]
    simp [evContainsCompleted, probe_not_in_failNotice rc]
  | cons line rest ih =>
    have hprobe : evContainsCompleted (Ev.rawLog line) = false := by
      simpa [evContainsCompleted] using hlines line (List.mem_cons_self _ _)
    have ihr := ih (fun l hl => hlines l (List.mem_cons_of_mem _ hl))
    cases hpl : parse line with
    | none =>
      have hline : runEvolutionLine line = ([Ev.rawLog line], none) := by
        simp [runEvolutionLine, hpl]
      simp only [runEvolution, hline, List.singleton_append, List.filter_append]
      rw [List.filter_cons_of_neg (by simp [hprobe])]
      simpa using ihr
    | some gr =>
      cases hpay : payloadOfGroups gr with
      | none =>
        have hline : runEvolutionLine line = ([Ev.rawLog line], some (floatErrText gr)) := by
          simp [runEvolutionLine, hpl, hpay]
        simp only [runEvolution, hline]
        rw [List.filter_cons_of_neg (by simp [hprobe])]
        rfl
      | some p =>
        have hline : runEvolutionLine line
            = ([Ev.rawLog line, Ev.metricJson p], none) := by
          simp [runEvolutionLine, hpl, hpay]
        simp only [runEvolution, hline, List.filter_append]
        rw [List.filter_cons_of_neg (by simp [hprobe]),
          List.filter_cons_of_neg (by simp [evContainsCompleted])]
        simpa using ihr

theorem exitNotices_no_metric (rc : Int) (i : Nat) (p : MetricPayload) :
    (exitNotices rc).get? i ≠ some (Ev.metricJson p) := by
  intro h
  by_cases hrc : rc = 0
  · simp only [exitNotices, if_pos hrc] at h
    rcases i with _ | _ | n <;> simp at h
  · simp only [exitNotices, if_neg hrc] at h
    rcases i with _ | n <;> simp at h

/-- In the pump loop's emission order, every metric event sits directly
after the raw-log event of the line that produced it. -/
theorem runEvolution_metric_pred (lines : List (List Char)) (rc : Int) :
    ∀ i p, (runEvolution lines rc).1.get? i = some (Ev.metricJson p) →
      ∃ l gr, 1 ≤ i ∧ (runEvolution lines rc).1.get? (i - 1) = some (Ev.rawLog l) ∧
        parse l = some gr ∧ payloadOfGroups gr = some p := by
  induction lines with
  | nil =>
    intro i p h
    exact absurd h (exitNotices_no_metric rc i p)
  | cons line rest ih =>
    intro i p h
    cases hpl : parse line with
    | none =>
      have hline : runEvolutionLine line = ([Ev.rawLog line], none) := by
        simp [runEvolutionLine, hpl]
      simp only [runEvolution, hline, List.singleton_append] at h ⊢
      rcases i with _ | j
      · simp at h
      · have hj : (runEvolution rest rc).1.get? j = some (Ev.metricJson p) := by
          simpa using h
        obtain ⟨l, gr, hj1, hpred, hparse, hpay⟩ := ih j p hj
        refine ⟨l, gr, by omega, ?_, hparse, hpay⟩
        have hj' : j = (j - 1) + 1 := by omega
        simp only [Nat.add_sub_cancel]
        rw [hj']
        simpa using hpred
    | some gr0 =>
      cases hpay0 : payloadOfGroups gr0 with
      | none =>
        have hline : runEvolutionLine line = ([Ev.rawLog line], some (floatErrText gr0)) := by
          simp [runEvolutionLine, hpl, hpay0]
        simp only [runEvolution, hline] at h
        rcases i with _ | j <;> simp at h
      | some p0 =>
        have hline : runEvolutionLine line
            = ([Ev.rawLog line, Ev.metricJson p0], none) := by
          simp [runEvolutionLine, hpl, hpay0]
        simp only [runEvolution, hline, List.cons_append, List.nil_append] at h ⊢
        rcases i with _ | _ | j
        · simp at h
        · refine ⟨line, gr0, Nat.le_refl 1, rfl, hpl, ?_⟩
          have hp : p0 = p := by simpa using h
          rw [hpay0, hp]
        · have hj : (runEvolution rest rc).1.get? j = some (Ev.metricJson p) := by
            simpa using h
          obtain ⟨l, gr, hj1, hpred, hparse, hpay⟩ := ih j p hj
          refine ⟨l, gr, by omega, ?_, hparse, hpay⟩
          have hj' : j = (j - 1) + 1 := by omega
          simp only [Nat.add_sub_cancel]
          rw [hj']
          simpa using hpred

/-! ## Filtering the simulator's output for template matches -/

theorem filter_evalLines (pop g : Nat) (scoreF : Nat → Nat → List Char)
    (hs : ∀ gg i, ∀ c ∈ scoreF gg i, isNumChar c = true) :
    ((List.range pop).map (fun i => evalLine (i + 1) pop (scoreF g (i + 1)))).filter
      (fun l => (parse l).isSome) = [] := by
  apply List.filter_eq_nil_iff.2
  intro l hl
  obtain ⟨i, hi, rfl⟩ := List.mem_map.1 hl
  simp [parse_evalLine _ _ _ (hs g (i + 1))]

theorem filter_simGenBlock (gens pop g : Nat) (scoreF : Nat → Nat → List Char)
    (avgF bestF : Nat → List Char)
    (hs : ∀ gg i, ∀ c ∈ scoreF gg i, isNumChar c = true)
    (ha : isNumStrB (avgF g) = true) (hb : isNumStrB (bestF g) = true) :
    (simGenBlock gens pop g scoreF avgF bestF).filter (fun l => (parse l).isSome)
      = [metricLine g gens (avgF g) (bestF g)] := by
  have h0 : (parse ([] : List Char)).isSome = false := by decide
  have h1 : (parse (startGenLine g)).isSome = false := by
    rw [parse_startGenLine g]
    rfl
  have h2 : (parse (metricLine g gens (avgF g) (bestF g))).isSome = true := by
    rw [parse_metricLine g gens _ _ ha hb]
    rfl
  simp only [simGenBlock, List.filter_append, List.filter_cons, List.filter_nil,
    h0, h1, h2, filter_evalLines pop g scoreF hs]
  simp

theorem filter_simBlocks (gens pop : Nat) (scoreF : Nat → Nat → List Char)
    (avgF bestF : Nat → List Char)
    (hs : ∀ gg i, ∀ c ∈ scoreF gg i, isNumChar c = true)
    (ha : ∀ g, isNumStrB (avgF g) = true) (hb : ∀ g, isNumStrB (bestF g) = true) :
    ∀ ks : List Nat,
      ((ks.map (fun k => simGenBlock gens pop (k + 1) scoreF avgF bestF)).flatten).filter
        (fun l => (parse l).isSome)
        = ks.map (fun k => metricLine (k + 1) gens (avgF (k + 1)) (bestF (k + 1))) := by
  intro ks
  induction ks with
  | nil => rfl
  | cons k ks ih =>
    simp only [List.map_cons, List.flatten_cons, List.filter_append, ih,
      filter_simGenBlock gens pop (k + 1) scoreF avgF bestF hs (ha (k + 1)) (hb (k + 1))]
    rfl

theorem filter_simHead (pop : Nat) :
    (simHeadLines pop).filter (fun l => (parse l).isSome) = [] := by
  have h1 : (parse ("--- ModelScope AgentEvolver (SIMULATION) ---".data)).isSome
      = false := by decide
  have h2 : (parse ("[INFO] Initializing population of ".data ++ decStr pop ++
      " agents...".data)).isSome = false := by
    rw [parse_initLine pop]
    rfl
  simp only [simHeadLines, List.filter_cons, List.filter_nil, h1, h2]
  simp

theorem filter_simTail (outDir : List Char) (hdir : 'G' ∉ outDir) :
    (simTailLines outDir).filter (fun l => (parse l).isSome) = [] := by
  have h0 : (parse ([] : List Char)).isSome = false := by decide
  have h1 : (parse ("[INFO] Optimization Finished.".data)).isSome = false := by decide
  have h2 : (parse ("[INFO] Saved best agent to ".data ++ outDir ++
      "/best_agent.pt".data)).isSome = false := by
    rw [parse_savedLine outDir hdir]
    rfl
  simp only [simTailLines, List.filter_cons, List.filter_nil, h0, h1, h2]
  simp

/-! ## The shared-queue invariant -/

/-- The dispatch invariant of the shared log queue: what has been handed to
sessions, in hand-over order, followed by what is still queued, is exactly
the publish sequence — so deliveries never duplicate or reorder events. -/
def busInv (s : BusState α) : Prop :=
  s.delivered.map Prod.snd ++ s.queue = s.published

theorem busStep_inv {s : BusState α} (op : BusOp α) (h : busInv s) :
    busInv (busStep s op) := by
  cases op with
  | attach sid => simpa [busStep, busInv] using h
  | publish e =>
    simp only [busStep, busInv] at h ⊢
    rw [← List.append_assoc, h]
  | deliver sid =>
    simp only [busStep]
    by_cases hs : sid ∈ s.attached
    · rw [if_pos hs]
      cases hq : s.queue with
      | nil => simpa [busInv] using h
      | cons e rest =>
        simp only [busInv] at h ⊢
        simp only [List.map_append, List.map_cons, List.map_nil]
        rw [List.append_assoc]
        simp only [List.singleton_append]
        rw [← hq]
        exact h
    · rw [if_neg hs]
      exact h

theorem busRun_inv_aux (ops : List (BusOp α)) :
    ∀ s : BusState α, busInv s → busInv (ops.foldl busStep s) := by
  induction ops with
  | nil => intro s h; exact h
  | cons op rest ih => intro s h; exact ih _ (busStep_inv op h)

theorem busRun_inv (ops : List (BusOp α)) : busInv (busRun ops) :=
  busRun_inv_aux ops (busInit α) rfl

theorem receivedBy_sublist (sid : Nat) (ops : List (BusOp α)) :
    (receivedBy sid (busRun ops)).Sublist (busRun ops).published := by
  have h := busRun_inv ops
  have h1 : ((busRun ops).delivered.filter (fun p => p.1 = sid)).Sublist
      (busRun ops).delivered := List.filter_sublist _
  have h2 : (receivedBy sid (busRun ops)).Sublist
      ((busRun ops).delivered.map Prod.snd) := h1.map Prod.snd
  have h3 : ((busRun ops).delivered.map Prod.snd).Sublist (busRun ops).published := by
    rw [busInv] at h
    rw [← h]
    exact List.sublist_append_left _ _
  exact h2.trans h3

/-! ## The claims -/

/-- C1, counterexample.  The log queue is a single shared asyncio.Queue,
not a broadcast bus.  In the first schedule both subscribers attach before
any publication, yet subscriber 0 receives only the first event (the
second goes to subscriber 1), so a subscriber attached before publication
does not receive every published event.  In the second schedule an event
published before subscriber 0 attached is delivered to it, so pre-attach
events are not withheld either. -/
theorem claimC1_counterexample :
    (busRun [BusOp.attach 0, BusOp.attach 1, BusOp.publish 1, BusOp.publish 2,
      BusOp.deliver 0, BusOp.deliver 1]).published = [1, 2] ∧
    receivedBy 0 (busRun [BusOp.attach 0, BusOp.attach 1, BusOp.publish 1,
      BusOp.publish 2, BusOp.deliver 0, BusOp.deliver 1]) = [1] ∧
    receivedBy 1 (busRun [BusOp.attach 0, BusOp.attach 1, BusOp.publish 1,
      BusOp.publish 2, BusOp.deliver 0, BusOp.deliver 1]) = [2] ∧
    receivedBy 0 (busRun [BusOp.publish 7, BusOp.attach 0, BusOp.deliver 0]) = [7] := by
  decide

/-- C1, amended.  What the shared queue does guarantee, for every schedule
of attaches, publishes and deliveries: the events handed out (across all
subscribers, in hand-over order) followed by the still-queued events equal
the publish sequence — so each published event is delivered at most once
in total and in publish order, with no duplication and no invention — and
each individual subscriber receives a subsequence of the publish order. -/
theorem claimC1_amended (α : Type) (ops : List (BusOp α)) :
    (busRun ops).delivered.map Prod.snd ++ (busRun ops).queue = (busRun ops).published ∧
    ∀ sid, (receivedBy sid (busRun ops)).Sublist (busRun ops).published :=
  ⟨busRun_inv ops, fun sid => receivedBy_sublist sid ops⟩

/-- C1, witness: the amended theorem at a concrete schedule and subscriber. -/
theorem claimC1_witness :
    (busRun [BusOp.publish 5, BusOp.attach 0, BusOp.deliver 0]).delivered.map Prod.snd ++
        (busRun [BusOp.publish 5, BusOp.attach 0, BusOp.deliver 0]).queue
      = (busRun [BusOp.publish 5, BusOp.attach 0, BusOp.deliver 0]).published ∧
    (receivedBy 0 (busRun [BusOp.publish 5, BusOp.attach 0, BusOp.deliver 0])).Sublist
      (busRun [BusOp.publish 5, BusOp.attach 0, BusOp.deliver 0]).published :=
  ⟨(claimC1_amended Nat [BusOp.publish 5, BusOp.attach 0, BusOp.deliver 0]).1,
   (claimC1_amended Nat [BusOp.publish 5, BusOp.attach 0, BusOp.deliver 0]).2 0⟩

/-- C2, counterexample.  The line below matches the generation template
with values (1, 5, 0.5, 0.8) — taking the tail text as surrounding text —
but the greedy regex captures the last best-reward occurrence, so
parse returns 0.9, not 0.8: the claim fails for lines whose surrounding
text repeats a marker. -/
theorem claimC2_counterexample :
    templateCaptures
      ("Generation [1/5]: Avg Reward: 0.5, Best Reward: 0.8, Best Reward: 0.9".data)
      ['1'] ['5'] ("0.5".data) ("0.8".data) ∧
    parse ("Generation [1/5]: Avg Reward: 0.5, Best Reward: 0.8, Best Reward: 0.9".data)
      = some ⟨['1'], ['5'], "0.5".data, "0.9".data⟩ ∧
    ("0.9".data : List Char) ≠ "0.8".data := by
  refine ⟨⟨[], [' '], [' '], [' '], [',', ' '], [' '], ", Best Reward: 0.9".data,
    by decide, by decide, by decide, by decide, by decide, by decide, by decide,
    by decide⟩, by decide, by decide⟩

/-- C2, amended.  (i) For a line that decomposes along the template at the
positions the leftmost-then-greedy regex strategy selects (no start
position before the real anchor matches, and no marker occurrence further
right completes a match — in particular any unambiguous line), parse
returns exactly the record (g, G, avg, best) of that decomposition.
(ii) For a line with no template decomposition at all, parse returns
NoMatch. -/
theorem claimC2_amended :
    (∀ pre ws1 g t mid1 ws2 a mid2 ws3 b post : List Char,
      noEarlyHit matchAt pre (templateTail ws1 g t mid1 ws2 a mid2 ws3 b post) = true →
      isWsStrB ws1 = true → isDigitStrB g = true → isDigitStrB t = true →
      isWsStrB ws2 = true → isNumStrB a = true →
      headNotNumB mid2 = true →
      isWsStrB ws3 = true → isNumStrB b = true →
      headNotNumB post = true →
      failsOnAll tryBestTail (bestTail ++ (ws3 ++ (b ++ post))) = true →
      failsOnAll tryAvgTail
        (avgTail ++ (ws2 ++ (a ++ (mid2 ++ (bestMarker ++ (ws3 ++ (b ++ post))))))) = true →
      parse (templateStr pre ws1 g t mid1 ws2 a mid2 ws3 b post) = some ⟨g, t, a, b⟩) ∧
    (∀ line : List Char, ¬ matchesTemplate line → parse line = none) := by
  constructor
  · intro pre ws1 g t mid1 ws2 a mid2 ws3 b post h1 h2 h3 h4 h5 h6 h7 h8 h9 h10 h11 h12
    exact parse_template pre ws1 g t mid1 ws2 a mid2 ws3 b post h1 h2 h3 h4 h5 h6 h7 h8
      h9 h10 h11 h12
  · intro line h
    exact parse_none_of_not_matchesTemplate h

/-- C2, witness: the amended theorem applied at a concrete matching line
and at a concrete non-matching line. -/
theorem claimC2_witness :
    parse (templateStr [] [' '] ['1'] ['5'] [' '] [' '] ("0.45".data) [',', ' '] [' ']
        ("0.8".data) []) = some ⟨['1'], ['5'], "0.45".data, "0.8".data⟩ ∧
    parse ("hello world".data) = none :=
  ⟨claimC2_amended.1 [] [' '] ['1'] ['5'] [' '] [' '] ("0.45".data) [',', ' '] [' ']
      ("0.8".data) [] rfl (by decide) (by decide) (by decide) (by decide) (by decide)
      (by decide) (by decide) (by decide) (by decide) (by decide) (by decide),
   claimC2_amended.2 ("hello world".data)
     (fun hm => absurd (matchesTemplate_mem hm).1 (by decide))⟩

/-- C3, counterexample.  stop never clears the process handle, so once a
process was ever started, the second consecutive stop also answers
stopped — not no-process-running as claimed. -/
theorem claimC3_counterexample :
    (stopEndpoint ⟨some ⟨true⟩, []⟩).2 = "stopped".data ∧
    (stopEndpoint (stopEndpoint ⟨some ⟨true⟩, []⟩).1).2 = "stopped".data ∧
    ("stopped".data : List Char) ≠ "no_process_running".data := by
  decide

/-- C3, amended.  stop is idempotent and never an error, but the two
consecutive calls return the same indicator: stopped whenever a process
handle exists (live or exited), and no-process-running exactly when no
process was ever launched. -/
theorem claimC3_amended (s : ServerState) :
    (stopEndpoint (stopEndpoint s).1).2 = (stopEndpoint s).2 ∧
    ((stopEndpoint s).2 = "stopped".data ∨
      (stopEndpoint s).2 = "no_process_running".data) ∧
    ((stopEndpoint s).2 = "no_process_running".data ↔ s.process = none) := by
  cases hp : s.process with
  | none =>
    refine ⟨?_, Or.inr ?_, ?_⟩
    · simp [stopEndpoint, hp]
    · simp [stopEndpoint, hp]
    · simp [stopEndpoint, hp]
  | some p =>
    refine ⟨?_, Or.inl ?_, ?_⟩
    · simp [stopEndpoint, hp, serviceStop]
    · simp [stopEndpoint, hp]
    · simp only [stopEndpoint, hp]
      constructor
      · intro h
        exact absurd h (by decide)
      · intro h
        cases h

/-- C3, witness: the amended theorem at a concrete state. -/
theorem claimC3_witness :
    (stopEndpoint (stopEndpoint ⟨none, []⟩).1).2 = (stopEndpoint ⟨none, []⟩).2 ∧
    ((stopEndpoint ⟨none, []⟩).2 = "stopped".data ∨
      (stopEndpoint ⟨none, []⟩).2 = "no_process_running".data) ∧
    ((stopEndpoint ⟨none, []⟩).2 = "no_process_running".data ↔
      (⟨none, []⟩ : ServerState).process = none) :=
  claimC3_amended ⟨none, []⟩

/-- C4, counterexample.  A child run that exits with code 1 (no output
lines, an external url configured): the orchestrator emits the one ERROR
notice citing the exit code, but attempts no webhook at all — in
particular no Failed webhook — because the code only fires a webhook on
the completion probe, and no Failed webhook exists anywhere. -/
theorem claimC4_counterexample :
    (processRunner ("http://example.com/hook".data) ("tok".data) [] 1).hooks = [] ∧
    noticeTexts (processRunner ("http://example.com/hook".data) ("tok".data) [] 1).puts
      = [failNoticeText 1] := by
  decide

/-- C4, amended.  For every child output and nonzero exit code — provided
no output line itself contains the completion probe text and no metric
conversion crashes the generator — exactly one SystemNotice is emitted,
the ERROR notice citing that exit code, and no webhook whatsoever is
attempted on the failure path (the code has no Failed webhook; the
completion webhook does not fire because no queued line contains the
probe). -/
theorem claimC4_amended (lines : List (List Char)) (rc : Int) (url token : List Char)
    (hrc : rc ≠ 0)
    (hlines : ∀ l ∈ lines, occursAnywhere completedProbe (stdoutTag ++ l) = false)
    (hclean : (runEvolution lines rc).2 = none) :
    (processRunner url token lines rc).hooks = [] ∧
    noticeTexts (processRunner url token lines rc).puts = [failNoticeText rc] := by
  constructor
  · simp only [processRunner]
    by_cases hu : url.isEmpty
    · rw [if_pos hu]
    · rw [if_neg hu, runEvolution_no_completed_hit lines rc hrc hlines]
      rfl
  · have h1 := runEvolution_notices lines rc hclean
    simp only [processRunner, hclean, List.append_nil]
    rw [h1]
    simp [exitNotices, if_neg hrc, noticeTexts]

/-- C4, witness: the amended theorem at a concrete failing run. -/
theorem claimC4_witness :
    (processRunner ("http://h".data) [] ["hello".data] 2).hooks = [] ∧
    noticeTexts (processRunner ("http://h".data) [] ["hello".data] 2).puts
      = [failNoticeText 2] :=
  claimC4_amended ["hello".data] 2 ("http://h".data) [] (by decide)
    (by
      intro l hl
      simp only [List.mem_singleton] at hl
      subst hl
      decide)
    (by decide)

/-- C5: starting while a run is live is rejected — /api/start with 400 and
/api/integration/job with 409 — before any config read, webhook dispatch,
task spawn or queue write, so the existing run's state is returned
untouched in both cases. -/
theorem claimC5_start_busy (s : ServerState) (url tid : List Char)
    (h : runningB s = true) :
    startEndpoint s url = ⟨s, StartResult.busy, false, false⟩ ∧
    triggerJobEndpoint s tid = (s, JobResult.busy409) := by
  constructor
  · simp [startEndpoint, h]
  · simp [triggerJobEndpoint, h]

/-- C5, witness: the busy rejection at a concrete running state. -/
theorem claimC5_witness :
    runningB ⟨some ⟨true⟩, []⟩ = true ∧
    (startEndpoint ⟨some ⟨true⟩, []⟩ ("http://x".data)
        = ⟨⟨some ⟨true⟩, []⟩, StartResult.busy, false, false⟩ ∧
      triggerJobEndpoint ⟨some ⟨true⟩, []⟩ ("t1".data)
        = (⟨some ⟨true⟩, []⟩, JobResult.busy409)) :=
  ⟨by decide, claimC5_start_busy _ _ _ (by decide)⟩

/-- C6: in the pump loop's emission order, every metric event sits at a
positive index whose immediate predecessor is the raw-log event of the
very line whose parse produced that metric payload — no event intervenes
between the pair. -/
theorem claimC6_metric_pairing (lines : List (List Char)) (rc : Int) (i : Nat)
    (p : MetricPayload)
    (h : (runEvolution lines rc).1.get? i = some (Ev.metricJson p)) :
    ∃ l gr, 1 ≤ i ∧ (runEvolution lines rc).1.get? (i - 1) = some (Ev.rawLog l) ∧
      parse l = some gr ∧ payloadOfGroups gr = some p :=
  runEvolution_metric_pred lines rc i p h

/-- C6, witness: a concrete run with one matching line. -/
theorem claimC6_witness :
    (runEvolution ["Generation [1/5]: Avg Reward: 0.5, Best Reward: 0.8".data] 0).1.get? 1
      = some (Ev.metricJson ⟨10, mkRat 1 2, mkRat 4 5, oneMinus (mkRat 1 2)⟩) ∧
    (∃ l gr, 1 ≤ 1 ∧
      (runEvolution ["Generation [1/5]: Avg Reward: 0.5, Best Reward: 0.8".data] 0).1.get?
        (1 - 1) = some (Ev.rawLog l) ∧
      parse l = some gr ∧ payloadOfGroups gr
        = some (⟨10, mkRat 1 2, mkRat 4 5, oneMinus (mkRat 1 2)⟩ : MetricPayload)) :=
  ⟨by decide,
   claimC6_metric_pairing ["Generation [1/5]: Avg Reward: 0.5, Best Reward: 0.8".data]
     0 1 ⟨10, mkRat 1 2, mkRat 4 5, oneMinus (mkRat 1 2)⟩ (by decide)⟩

/-- C7: for a matched line with captures (g, G, avg, best) whose reward
fields convert, the pump emits the raw log followed by a metric payload
with step = g * 10, reward = avg, success_rate = best (best proxied as
success rate) and loss = 1 - avg. -/
theorem claimC7_payload_mapping (line : List Char) (gr : MetricGroups) (qa qb : ℚ)
    (hp : parse line = some gr)
    (hqa : pyFloat gr.avgRew = some qa) (hqb : pyFloat gr.bestRew = some qb) :
    runEvolutionLine line
      = ([Ev.rawLog line,
          Ev.metricJson ⟨natOfDigits gr.gen * 10, qa, qb, oneMinus qa⟩], none) ∧
    oneMinus qa = 1 - qa := by
  refine ⟨?_, oneMinus_eq qa⟩
  simp [runEvolutionLine, hp, payloadOfGroups, hqa, hqb]

/-- C7, witness: the payload mapping at a concrete matched line. -/
theorem claimC7_witness :
    parse ("Generation [3/7]: Avg Reward: 0.25, Best Reward: 0.75".data)
      = some ⟨['3'], ['7'], "0.25".data, "0.75".data⟩ ∧
    pyFloat ("0.25".data) = some (mkRat 1 4) ∧
    pyFloat ("0.75".data) = some (mkRat 3 4) ∧
    runEvolutionLine ("Generation [3/7]: Avg Reward: 0.25, Best Reward: 0.75".data)
      = ([Ev.rawLog ("Generation [3/7]: Avg Reward: 0.25, Best Reward: 0.75".data),
          Ev.metricJson ⟨30, mkRat 1 4, mkRat 3 4, oneMinus (mkRat 1 4)⟩], none) :=
  ⟨by decide, by decide, by decide,
   (claimC7_payload_mapping ("Generation [3/7]: Avg Reward: 0.25, Best Reward: 0.75".data)
     ⟨['3'], ['7'], "0.25".data, "0.75".data⟩ (mkRat 1 4) (mkRat 3 4)
     (by decide) (by decide) (by decide)).1⟩

/-- C8: send with a falsy url attempts no network call and returns
normally; with a configured url exactly one POST is attempted, carrying
the signature and event-type headers and the 5-second timeout, and the
call returns normally whatever the response status or network failure —
delivery problems never propagate, so they cannot change orchestrator
state. -/
theorem claimC8_webhook (url secret ty : List Char) (outcome : NetOutcome) :
    (url = [] → sendEvent url secret ty outcome = ([], SendOutcome.ok)) ∧
    (url ≠ [] →
      (sendEvent url secret ty outcome).1 = [⟨url, secret, ty, 5⟩] ∧
      (sendEvent url secret ty outcome).2 = SendOutcome.ok) := by
  constructor
  · intro h
    subst h
    rfl
  · intro h
    have hne : url.isEmpty = false := by simpa [List.isEmpty_iff] using h
    refine ⟨?_, ?_⟩
    · simp [sendEvent, hne]
    · simp only [sendEvent, hne, Bool.false_eq_true, if_false]
      cases outcome <;> rfl

/-- C8, witness: the no-op branch and the attempted-call branch. -/
theorem claimC8_witness :
    sendEvent [] ("s".data) ("TRAINING_STARTED".data) (NetOutcome.status 500)
      = ([], SendOutcome.ok) ∧
    ((sendEvent ("http://e".data) ("s".data) ("TRAINING_STARTED".data)
        NetOutcome.netFail).1
        = [⟨"http://e".data, "s".data, "TRAINING_STARTED".data, 5⟩] ∧
      (sendEvent ("http://e".data) ("s".data) ("TRAINING_STARTED".data)
        NetOutcome.netFail).2 = SendOutcome.ok) :=
  ⟨(claimC8_webhook [] ("s".data) ("TRAINING_STARTED".data) (NetOutcome.status 500)).1 rfl,
   (claimC8_webhook ("http://e".data) ("s".data) ("TRAINING_STARTED".data)
     NetOutcome.netFail).2 (by decide)⟩

theorem digitVal_char {m : Nat} (h : m < 10) : digitVal (Char.ofNat (48 + m)) = m := by
  interval_cases m <;> decide

theorem natOfDigits_append_digit (xs : List Char) (c : Char) :
    natOfDigits (xs ++ [c]) = 10 * natOfDigits xs + digitVal c := by
  simp [natOfDigits, List.foldl_append]

theorem natOfDigits_decStrAux {fuel n : Nat} (h : n < fuel) :
    natOfDigits (decStrAux fuel n) = n := by
  induction fuel generalizing n with
  | zero => exact absurd h (Nat.not_lt_zero n)
  | succ f ih =>
    simp only [decStrAux]
    by_cases hn : n < 10
    · rw [if_pos hn]
      simp [natOfDigits, digitVal_char hn]
    · rw [if_neg hn]
      have h10 : 0 < n := by omega
      have hdiv : n / 10 < f := by
        have := Nat.div_lt_self h10 (by norm_num : 1 < 10)
        omega
      rw [natOfDigits_append_digit, ih hdiv,
        digitVal_char (Nat.mod_lt n (by norm_num))]
      omega

/-- Round trip: the digit string of n evaluates back to n, so a capture
rendered with decStr carries exactly that numeric value. -/
theorem natOfDigits_decStr (n : Nat) : natOfDigits (decStr n) = n :=
  natOfDigits_decStrAux (Nat.lt_succ_self n)

/-- C9: for generations = G and population = P (any score/reward
renderings made of digits and dots, any output directory without the
marker letter), the fallback simulator's matching lines are exactly the G
metric lines, one per generation cycle in order; each parses with
totalGenerations capture = decStr G, whose numeric value is G; and the
run writes the checkpoint artifact best_agent.pt into the configured
output directory. -/
theorem claimC9_simulator (gens pop : Nat) (scoreF : Nat → Nat → List Char)
    (avgF bestF : Nat → List Char) (outDir : List Char)
    (hs : ∀ g i, ∀ c ∈ scoreF g i, isNumChar c = true)
    (ha : ∀ g, isNumStrB (avgF g) = true)
    (hb : ∀ g, isNumStrB (bestF g) = true)
    (hdir : 'G' ∉ outDir) :
    (runFallbackSimulation gens pop scoreF avgF bestF outDir).lines.filter
        (fun l => (parse l).isSome)
      = (List.range gens).map
          (fun k => metricLine (k + 1) gens (avgF (k + 1)) (bestF (k + 1))) ∧
    (∀ k, parse (metricLine (k + 1) gens (avgF (k + 1)) (bestF (k + 1)))
        = some ⟨decStr (k + 1), decStr gens, avgF (k + 1), bestF (k + 1)⟩) ∧
    natOfDigits (decStr gens) = gens ∧
    (runFallbackSimulation gens pop scoreF avgF bestF outDir).files
      = [(outDir ++ "/best_agent.pt".data, "mock_checkpoint_data".data)] := by
  refine ⟨?_, fun k => parse_metricLine (k + 1) gens _ _ (ha (k + 1)) (hb (k + 1)),
    natOfDigits_decStr gens, rfl⟩
  simp only [runFallbackSimulation, List.filter_append]
  rw [filter_simHead pop, filter_simTail outDir hdir,
    filter_simBlocks gens pop scoreF avgF bestF hs ha hb (List.range gens)]
  simp

/-- C9, witness: the simulator theorem at a concrete configuration
(two generations, population one, fixed renderings). -/
theorem claimC9_witness :
    (runFallbackSimulation 2 1 (fun _ _ => "0.5000".data) (fun _ => "0.2500".data)
        (fun _ => "0.3000".data) ("outputs".data)).lines.filter
        (fun l => (parse l).isSome)
      = (List.range 2).map
          (fun k => metricLine (k + 1) 2 ("0.2500".data) ("0.3000".data)) ∧
    (runFallbackSimulation 2 1 (fun _ _ => "0.5000".data) (fun _ => "0.2500".data)
        (fun _ => "0.3000".data) ("outputs".data)).files
      = [("outputs".data ++ "/best_agent.pt".data, "mock_checkpoint_data".data)] :=
  ⟨(claimC9_simulator 2 1 (fun _ _ => "0.5000".data) (fun _ => "0.2500".data)
      (fun _ => "0.3000".data) ("outputs".data)
      (by
        intro g i
        show ∀ c ∈ ("0.5000".data), isNumChar c = true
        decide)
      (by
        intro g
        show isNumStrB ("0.2500".data) = true
        decide)
      (by
        intro g
        show isNumStrB ("0.3000".data) = true
        decide)
      (by decide)).1,
   (claimC9_simulator 2 1 (fun _ _ => "0.5000".data) (fun _ => "0.2500".data)
      (fun _ => "0.3000".data) ("outputs".data)
      (by
        intro g i
        show ∀ c ∈ ("0.5000".data), isNumChar c = true
        decide)
      (by
        intro g
        show isNumStrB ("0.2500".data) = true
        decide)
      (by
        intro g
        show isNumStrB ("0.3000".data) = true
        decide)
      (by decide)).2.2.2⟩

/-- C10, counterexample.  A request whose log_message is present but empty:
the endpoint publishes only the metric event and no raw-log event, because
the code tests truthiness, not presence — refuting the only-if direction
of the claimed iff. -/
theorem claimC10_counterexample :
    (ingestTelemetry ⟨40, 8, [("success_rate".data, 9), ("loss".data, 2)], some []⟩).1
      = [TelemetryEv.metricJson ⟨40, 8, 9, 2⟩] := by
  decide

/-- C10, amended.  Every accepted telemetry request publishes exactly one
metric event, whose four fields take step and reward verbatim and the
success_rate and loss values via the mapping's get with default 0; a
raw-log event is additionally published if and only if log_message is
present AND nonempty; and the endpoint answers accepted. -/
theorem claimC10_amended (d : ExternalTelemetry) :
    ((ingestTelemetry d).1.countP (fun e => match e with
        | TelemetryEv.metricJson _ => true | _ => false)) = 1 ∧
    (∀ p, TelemetryEv.metricJson p ∈ (ingestTelemetry d).1 →
      p.step = d.step ∧ p.reward = d.reward ∧
      p.success_rate = dictGet d.metrics ("success_rate".data) 0 ∧
      p.loss = dictGet d.metrics ("loss".data) 0) ∧
    ((∃ m, TelemetryEv.externalLog m ∈ (ingestTelemetry d).1) ↔
      (∃ m, d.log_message = some m ∧ m ≠ [])) ∧
    (ingestTelemetry d).2 = "accepted".data := by
  cases hm : d.log_message with
  | none =>
    refine ⟨by simp [ingestTelemetry, hm], ?_, ?_, rfl⟩
    · intro p hp
      simp only [ingestTelemetry, hm, List.nil_append, List.mem_singleton] at hp
      injection hp with hp2
      subst hp2
      exact ⟨rfl, rfl, rfl, rfl⟩
    · simp [ingestTelemetry, hm]
  | some m =>
    by_cases hme : m.isEmpty
    · have hmnil : m = [] := by simpa [List.isEmpty_iff] using hme
      subst hmnil
      refine ⟨by simp [ingestTelemetry, hm], ?_, ?_, rfl⟩
      · intro p hp
        simp only [ingestTelemetry, hm, List.isEmpty_nil, if_pos, List.nil_append,
          List.mem_singleton] at hp
        injection hp with hp2
        subst hp2
        exact ⟨rfl, rfl, rfl, rfl⟩
      · simp [ingestTelemetry, hm]
    · refine ⟨by simp [ingestTelemetry, hm, hme], ?_, ?_, rfl⟩
      · intro p hp
        simp only [ingestTelemetry, hm, hme, Bool.false_eq_true, if_false,
          List.cons_append, List.nil_append, List.mem_cons, List.not_mem_nil,
          or_false] at hp
        rcases hp with hp | hp
        · cases hp
        · injection hp with hp2
          subst hp2
          exact ⟨rfl, rfl, rfl, rfl⟩
      · constructor
        · intro _
          refine ⟨m, rfl, ?_⟩
          simpa [List.isEmpty_iff] using hme
        · intro _
          refine ⟨m, ?_⟩
          simp [ingestTelemetry, hm, hme]

/-- C10, witness: the amended theorem at a concrete request with a
nonempty log message. -/
theorem claimC10_witness :
    ((ingestTelemetry ⟨7, 2, [("loss".data, 1)], some ("hi".data)⟩).1.countP
        (fun e => match e with
          | TelemetryEv.metricJson _ => true | _ => false)) = 1 ∧
    (ingestTelemetry ⟨7, 2, [("loss".data, 1)], some ("hi".data)⟩).2 = "accepted".data :=
  ⟨(claimC10_amended ⟨7, 2, [("loss".data, 1)], some ("hi".data)⟩).1,
   (claimC10_amended ⟨7, 2, [("loss".data, 1)], some ("hi".data)⟩).2.2.2⟩

end CannaAI
